import Mathlib

/-!
The package `pkg/mapper` of aws-auth: removal of identity bindings.

A shallow embedding of `pkg/mapper/remove.go` and of the parts of
`pkg/mapper/types.go` it uses, followed by theorems about the removal
functions `removeRole`, `removeUser`, `AuthMapper.Remove` and
`AuthMapper.RemoveByUsername` and about the validation of their arguments.

Modelling conventions.

* A Go `string` is a Lean `String`; Go `int` and `time.Duration` are `Int`
  (they are only compared with constants and copied).
* A Go `[]string` is a `StringSlice`: `none` is the nil slice and `some xs` a
  non-nil slice holding `xs`. The distinction is kept because
  `reflect.DeepEqual` tells a nil slice from an empty one.
* A Go slice of bindings (`[]*RolesAuthMap`, `[]*UsersAuthMap`) is a `List` of
  binding values: the code only ranges over such a slice and appends to it, and
  both treat nil and empty alike. The pointers are taken to be non-nil.
* `log.Printf` output is not modelled. `log.Fatal` ends the process and is
  modelled as an exception carrying the message.
-/

namespace Mapper

/-! ## Data model (`types.go`) -/

/-- Go `[]string`: `none` is the nil slice, `some xs` a non-nil slice. -/
abbrev StringSlice := Option (List String)

/-- Go `len(s)` of a `[]string`. -/
def StringSlice.len : StringSlice → Nat
  | none => 0
  | some xs => xs.length

/-- Elementwise comparison of two non-nil slices of equal length. -/
def elemsEqual : List String → List String → Bool
  | [], [] => true
  | x :: xs, y :: ys => x == y && elemsEqual xs ys
  | _, _ => false

/-- Go `reflect.DeepEqual` at type `[]string`: both nil, or both non-nil of the
same length with equal elements at every position. -/
def deepEqual : StringSlice → StringSlice → Bool
  | none, none => true
  | some xs, some ys => xs.length == ys.length && elemsEqual xs ys
  | _, _ => false

/-- RolesAuthMap is the basic structure of a mapRoles authentication object. -/
structure RolesAuthMap where
  RoleARN : String
  Username : String
  Groups : StringSlice
deriving DecidableEq, Repr

/-- UsersAuthMap is the basic structure of a mapUsers authentication object. -/
structure UsersAuthMap where
  UserARN : String
  Username : String
  Groups : StringSlice
deriving DecidableEq, Repr

/-- AwsAuthData represents the data of the aws-auth configmap. -/
structure AwsAuthData where
  MapRoles : List RolesAuthMap
  MapUsers : List UsersAuthMap
deriving DecidableEq, Repr

/-- SetMapRoles sets the MapRoles element. -/
def AwsAuthData.SetMapRoles (m : AwsAuthData) (authMap : List RolesAuthMap) : AwsAuthData :=
  { m with MapRoles := authMap }

/-- SetMapUsers sets the MapUsers element. -/
def AwsAuthData.SetMapUsers (m : AwsAuthData) (authMap : List UsersAuthMap) : AwsAuthData :=
  { m with MapUsers := authMap }

/-- NewRolesAuthMap returns a new RolesAuthMap. -/
def NewRolesAuthMap (rolearn username : String) (groups : StringSlice) : RolesAuthMap :=
  { RoleARN := rolearn, Username := username, Groups := groups }

/-- NewUsersAuthMap returns a new UsersAuthMap. -/
def NewUsersAuthMap (userarn username : String) (groups : StringSlice) : UsersAuthMap :=
  { UserARN := userarn, Username := username, Groups := groups }

/-! ## `removeRole` and `removeUser` (`remove.go`) -/

/-- The function `removeRole` of `remove.go`, statement by statement: the three
local variables are the mutable variables of the loop. -/
def removeRole (authMaps : List RolesAuthMap) (targetMap : RolesAuthMap) :
    List RolesAuthMap × Bool := Id.run do
  let mut newMap : List RolesAuthMap := []
  let mut match_ : Bool := false
  let mut removed : Bool := false
  for existingMap in authMaps do
    match_ := false
    if existingMap.RoleARN == targetMap.RoleARN then
      match_ := true
      if targetMap.Groups.len != 0 then
        if deepEqual existingMap.Groups targetMap.Groups then
          match_ := true
        else
          match_ := false
      if targetMap.Username != "" then
        if existingMap.Username == targetMap.Username then
          match_ := true
        else
          match_ := false
    if match_ then
      removed := true
    else
      newMap := newMap ++ [existingMap]
  return (newMap, removed)

/-- The function `removeUser` of `remove.go`, statement by statement. -/
def removeUser (authMaps : List UsersAuthMap) (targetMap : UsersAuthMap) :
    List UsersAuthMap × Bool := Id.run do
  let mut newMap : List UsersAuthMap := []
  let mut match_ : Bool := false
  let mut removed : Bool := false
  for existingMap in authMaps do
    match_ := false
    if existingMap.UserARN == targetMap.UserARN then
      match_ := true
      if targetMap.Groups.len != 0 then
        if deepEqual existingMap.Groups targetMap.Groups then
          match_ := true
        else
          match_ := false
      if targetMap.Username != "" then
        if existingMap.Username == targetMap.Username then
          match_ := true
        else
          match_ := false
    if match_ then
      removed := true
    else
      newMap := newMap ++ [existingMap]
  return (newMap, removed)

/-- The value of the variable `match` of `removeRole` at the test `if match`
(lines 76 to 93 of `remove.go`), as a function of the two bindings. -/
def roleMatch (existingMap targetMap : RolesAuthMap) : Bool := Id.run do
  let mut match_ : Bool := false
  if existingMap.RoleARN == targetMap.RoleARN then
    match_ := true
    if targetMap.Groups.len != 0 then
      if deepEqual existingMap.Groups targetMap.Groups then
        match_ := true
      else
        match_ := false
    if targetMap.Username != "" then
      if existingMap.Username == targetMap.Username then
        match_ := true
      else
        match_ := false
  return match_

/-- The value of the variable `match` of `removeUser` at the test `if match`
(lines 109 to 126 of `remove.go`). -/
def userMatch (existingMap targetMap : UsersAuthMap) : Bool := Id.run do
  let mut match_ : Bool := false
  if existingMap.UserARN == targetMap.UserARN then
    match_ := true
    if targetMap.Groups.len != 0 then
      if deepEqual existingMap.Groups targetMap.Groups then
        match_ := true
      else
        match_ := false
    if targetMap.Username != "" then
      if existingMap.Username == targetMap.Username then
        match_ := true
      else
        match_ := false
  return match_

/-! ## Arguments and their validation (`types.go`) -/

/-- RemoveArguments are the arguments for removing a mapRole or mapUsers. -/
structure RemoveArguments where
  KubeconfigPath : String
  MapRoles : Bool
  MapUsers : Bool
  Username : String
  RoleARN : String
  UserARN : String
  Groups : StringSlice
  WithRetries : Bool
  MinRetryTime : Int
  MaxRetryTime : Int
  MaxRetryCount : Int
  IsGlobal : Bool
deriving DecidableEq, Repr

/-- The method `RemoveArguments.Validate` of `types.go`. Each `log.Fatal` ends
the process; it is the exception carrying the logged message, so the first
failing check decides the result. -/
def RemoveArguments.Validate (args : RemoveArguments) : Except String Unit := do
  if args.WithRetries then
    if args.MaxRetryCount < 1 then
      throw "error: --retry-max-count is invalid, must be greater than zero"
  if args.RoleARN == "" && args.MapRoles then
    throw "error: --rolearn not provided"
  if args.UserARN == "" && args.MapUsers then
    throw "error: --userarn not provided"
  if args.MapUsers && args.MapRoles then
    throw "error: --mapusers and --maproles are mutually exclusive"
  if !args.MapUsers && !args.MapRoles then
    if !args.IsGlobal then
      throw "error: must select --mapusers or --maproles"

/-- UpsertArguments are the arguments for upserting a mapRole or mapUsers. -/
structure UpsertArguments where
  KubeconfigPath : String
  MapRoles : Bool
  MapUsers : Bool
  Username : String
  RoleARN : String
  UserARN : String
  Groups : StringSlice
  WithRetries : Bool
  MinRetryTime : Int
  MaxRetryTime : Int
  MaxRetryCount : Int
deriving DecidableEq, Repr

/-- The method `UpsertArguments.Validate` of `types.go`, with `log.Fatal` as
the exception carrying the logged message. -/
def UpsertArguments.Validate (args : UpsertArguments) : Except String Unit := do
  if args.WithRetries then
    if args.MaxRetryCount < 1 then
      throw "error: --retry-max-count is invalid, must be greater than zero"
  if args.RoleARN == "" && args.MapRoles then
    throw "error: --rolearn not provided"
  if args.UserARN == "" && args.MapUsers then
    throw "error: --userarn not provided"
  if args.Username == "" then
    throw "error: --username not provided"
  if args.MapUsers && args.MapRoles then
    throw "error: --mapusers and --maproles are mutually exclusive"
  if !args.MapUsers && !args.MapRoles then
    throw "error: must select --mapusers or --maproles"

/-! ## The store operations used by `remove.go`

`ReadAuthMap`, `UpdateAuthMap`, `UpdateAuthMapWithRetries` and the type
`RetryConfig` are declared outside `remove.go` and `types.go`. They are taken
as parameters: a `Client` gives the result of each call, and every call is
recorded in a trace so that statements about what was fetched and written can
be made. The type `CM` stands for `*v1.ConfigMap`, the fetched object that
carries the resource version. -/

/-- The retry configuration built by `Remove` and `RemoveByUsername`; the
fields are those of the composite literal in `remove.go`. -/
structure RetryConfig where
  MinRetryTime : Int
  MaxRetryTime : Int
  MaxRetryCount : Int
deriving DecidableEq, Repr

/-- A Go `error` value: `none` is nil, `some msg` an error with that message. -/
abbrev GoError := Option String

/-- What the three store operations return when called through a given
`kubernetes.Interface`. -/
structure Client (CM : Type) where
  ReadAuthMap : Except String (AwsAuthData × CM)
  UpdateAuthMap : AwsAuthData → CM → GoError
  UpdateAuthMapWithRetries : AwsAuthData → CM → RetryConfig → GoError

/-- A call of a store operation, with its arguments. -/
inductive Call (CM : Type) where
  | ReadAuthMap : Call CM
  | UpdateAuthMap (authData : AwsAuthData) (configMap : CM) : Call CM
  | UpdateAuthMapWithRetries (authData : AwsAuthData) (configMap : CM) (r : RetryConfig) : Call CM
deriving DecidableEq, Repr

/-- A call that writes the document to the store. -/
def Call.isWrite {CM : Type} : Call CM → Bool
  | .ReadAuthMap => false
  | .UpdateAuthMap _ _ => true
  | .UpdateAuthMapWithRetries _ _ _ => true

/-- A call that fetches the document from the store. -/
def Call.isRead {CM : Type} : Call CM → Bool
  | .ReadAuthMap => true
  | .UpdateAuthMap _ _ => false
  | .UpdateAuthMapWithRetries _ _ _ => false

/-- The document a call hands to the store, if it is a write. -/
def Call.written {CM : Type} : Call CM → Option AwsAuthData
  | .ReadAuthMap => none
  | .UpdateAuthMap authData _ => some authData
  | .UpdateAuthMapWithRetries authData _ _ => some authData

/-- Computations of the package: they record the store calls made so far and
may end the process (`log.Fatal`) with a message. -/
abbrev Proc (CM : Type) := ExceptT String (StateM (List (Call CM)))

/-- How an invocation ends: the process exits in `log.Fatal`, or the function
returns its `error` value. -/
inductive Outcome where
  | exited (msg : String) : Outcome
  | returned (err : GoError) : Outcome
deriving DecidableEq, Repr

/-- An invocation seen from outside: how it ended and the store calls it made,
in order. -/
structure Run (CM : Type) where
  outcome : Outcome
  calls : List (Call CM)
deriving DecidableEq, Repr

/-- Run a computation from an empty trace. -/
def Proc.exec {CM : Type} (p : Proc CM GoError) : Run CM :=
  match (ExceptT.run p).run [] with
  | (.ok err, calls) => { outcome := .returned err, calls := calls }
  | (.error msg, calls) => { outcome := .exited msg, calls := calls }

/-- Run a computation from a given trace. -/
def Proc.runFrom {CM α : Type} (p : Proc CM α) (calls : List (Call CM)) :
    Except String α × List (Call CM) :=
  (ExceptT.run p).run calls

/-- A `log.Fatal` inside a callee ends the caller too. -/
def fatalExits {CM : Type} (r : Except String Unit) : Proc CM Unit :=
  match r with
  | .ok _ => pure ()
  | .error msg => throw msg

/-- A call of `ReadAuthMap(k)`. -/
def ReadAuthMap {CM : Type} (k : Client CM) : Proc CM (Except String (AwsAuthData × CM)) := do
  modify (fun calls => calls ++ [Call.ReadAuthMap])
  return k.ReadAuthMap

/-- A call of `UpdateAuthMap(k, authData, configMap)`. -/
def UpdateAuthMap {CM : Type} (k : Client CM) (authData : AwsAuthData) (configMap : CM) :
    Proc CM GoError := do
  modify (fun calls => calls ++ [Call.UpdateAuthMap authData configMap])
  return k.UpdateAuthMap authData configMap

/-- A call of `UpdateAuthMapWithRetries(k, authData, configMap, r)`. -/
def UpdateAuthMapWithRetries {CM : Type} (k : Client CM) (authData : AwsAuthData)
    (configMap : CM) (r : RetryConfig) : Proc CM GoError := do
  modify (fun calls => calls ++ [Call.UpdateAuthMapWithRetries authData configMap r])
  return k.UpdateAuthMapWithRetries authData configMap r

/-- The struct `AuthMapper` of `types.go`. -/
structure AuthMapper (CM : Type) where
  KubernetesClient : Client CM
  LoggingEnabled : Bool

/-! ## `Remove` and `RemoveByUsername` (`remove.go`) -/

/-- Remove removes by match of provided arguments. -/
def AuthMapper.Remove {CM : Type} (b : AuthMapper CM) (args : RemoveArguments) :
    Proc CM GoError := do
  fatalExits args.Validate
  match ← ReadAuthMap b.KubernetesClient with
  | .error err => return some err
  | .ok (fetched, configMap) =>
    let mut authData := fetched
    if args.MapRoles then
      let rolesResource := NewRolesAuthMap args.RoleARN args.Username args.Groups
      let (newMap, ok) := removeRole authData.MapRoles rolesResource
      if !ok then
        return some "could not find rolemap"
      authData := authData.SetMapRoles newMap
    if args.MapUsers then
      let usersResource := NewUsersAuthMap args.UserARN args.Username args.Groups
      let (newMap, ok) := removeUser authData.MapUsers usersResource
      if !ok then
        return some "could not find rolemap"
      authData := authData.SetMapUsers newMap
    if args.WithRetries then
      let retryer : RetryConfig :=
        { MinRetryTime := args.MinRetryTime
          MaxRetryTime := args.MaxRetryTime
          MaxRetryCount := args.MaxRetryCount }
      return ← UpdateAuthMapWithRetries b.KubernetesClient authData configMap retryer
    return ← UpdateAuthMap b.KubernetesClient authData configMap

/-- The error message built by `RemoveByUsername` when nothing has the username. -/
def zeroMatchesMsg (username : String) : String :=
  "failed to remove based on username " ++ username ++ ", found zero matches\n"

/-- RemoveByUsername removes all map roles and map users that match provided
username. -/
def AuthMapper.RemoveByUsername {CM : Type} (b : AuthMapper CM) (args : RemoveArguments) :
    Proc CM GoError := do
  fatalExits args.Validate
  match ← ReadAuthMap b.KubernetesClient with
  | .error err => return some err
  | .ok (fetched, configMap) =>
    let mut authData := fetched
    let mut removed := false
    let mut newRolesAuthMap : List RolesAuthMap := []
    for mapRole in authData.MapRoles do
      if args.Username != mapRole.Username then
        newRolesAuthMap := newRolesAuthMap ++ [mapRole]
      else
        removed := true
    let mut newUsersAuthMap : List UsersAuthMap := []
    for mapUser in authData.MapUsers do
      if args.Username != mapUser.Username then
        newUsersAuthMap := newUsersAuthMap ++ [mapUser]
      else
        removed := true
    if !removed then
      let msg := zeroMatchesMsg args.Username
      return some msg
    authData := authData.SetMapRoles newRolesAuthMap
    authData := authData.SetMapUsers newUsersAuthMap
    if args.WithRetries then
      let retryer : RetryConfig :=
        { MinRetryTime := args.MinRetryTime
          MaxRetryTime := args.MaxRetryTime
          MaxRetryCount := args.MaxRetryCount }
      return ← UpdateAuthMapWithRetries b.KubernetesClient authData configMap retryer
    return ← UpdateAuthMap b.KubernetesClient authData configMap

/-! ## Example data -/

/-- The role binding of the example in the specification. -/
def adminRole : RolesAuthMap :=
  { RoleARN := "arn:aws:iam::111:role/admin", Username := "admin", Groups := some ["system:masters"] }

/-- A second role binding, with another identifier. -/
def nodeRole : RolesAuthMap :=
  { RoleARN := "arn:aws:iam::111:role/node", Username := "node", Groups := some ["system:nodes"] }

/-- A user binding. -/
def adminUser : UsersAuthMap :=
  { UserARN := "arn:aws:iam::111:user/admin", Username := "admin", Groups := some ["system:masters"] }

/-- A second user binding, with another identifier. -/
def devUser : UsersAuthMap :=
  { UserARN := "arn:aws:iam::111:user/dev", Username := "dev", Groups := none }

/-- A fetched document with two role bindings and two user bindings. -/
def exampleData : AwsAuthData :=
  { MapRoles := [adminRole, nodeRole], MapUsers := [adminUser, devUser] }

/-- A store whose fetch returns `exampleData` with handle `7` and whose writes
succeed. -/
def exampleClient : Client Nat :=
  { ReadAuthMap := .ok (exampleData, 7)
    UpdateAuthMap := fun _ _ => none
    UpdateAuthMapWithRetries := fun _ _ _ => none }

/-- Arguments with nothing selected; the examples set the fields they need. -/
def noArguments : RemoveArguments :=
  { KubeconfigPath := "", MapRoles := false, MapUsers := false, Username := "", RoleARN := "",
    UserARN := "", Groups := none, WithRetries := false, MinRetryTime := 0, MaxRetryTime := 0,
    MaxRetryCount := 0, IsGlobal := false }

/-- Arguments that remove the admin role under a retry policy with
`MaxRetryCount = 3`. -/
def retryArguments : RemoveArguments :=
  { noArguments with
    MapRoles := true, RoleARN := "arn:aws:iam::111:role/admin", Username := "admin",
    WithRetries := true, MinRetryTime := 1, MaxRetryTime := 8, MaxRetryCount := 3 }

/-- A store whose fetch fails. -/
def failingClient : Client Nat :=
  { ReadAuthMap := .error "configmaps \"aws-auth\" not found"
    UpdateAuthMap := fun _ _ => none
    UpdateAuthMapWithRetries := fun _ _ _ => none }

/-- A store whose fetch returns `exampleData` with handle `7` and whose writes
are rejected as conflicts. -/
def conflictClient : Client Nat :=
  { ReadAuthMap := .ok (exampleData, 7)
    UpdateAuthMap := fun _ _ => some "the object has been modified"
    UpdateAuthMapWithRetries := fun _ _ _ => some "the object has been modified" }

/-! ## A versioned store and the retrying write

`remove.go` hands the client to `UpdateAuthMapWithRetries`, so what happens
after a write conflict is decided by that function and by the store, neither
of which is in `remove.go` or `types.go`. They are modelled here from the
specification, so that a run with conflicts can be followed to its end. -/

/-- Modelled from the spec: the external store, missing from the sources, as
the VersionedResource of section 3: the current document and its version
token. The field `writers` lists the documents that concurrent clients commit,
one after each fetch made by this client; that is how a fetched token becomes
stale. -/
structure Store where
  document : AwsAuthData
  versionToken : Nat
  writers : List AwsAuthData
deriving DecidableEq, Repr

/-- Modelled from the spec: `fetch` of section 6, missing from the sources. It
returns the current document and version token; then the next concurrent
writer, if there is one, commits its document and the token advances. -/
def Store.fetch (s : Store) : (AwsAuthData × Nat) × Store :=
  ((s.document, s.versionToken),
    match s.writers with
    | [] => s
    | w :: ws => { document := w, versionToken := s.versionToken + 1, writers := ws })

/-- Modelled from the spec: `conditionalWrite` of section 6, missing from the
sources. The store rejects a write whose token is not its current token
(conflict); otherwise the document is replaced and the token advances. -/
def Store.conditionalWrite (s : Store) (d : AwsAuthData) (token : Nat) : GoError × Store :=
  if token = s.versionToken then
    (none, { s with document := d, versionToken := s.versionToken + 1 })
  else
    (some "conflict: the version token is stale", s)

/-- An operation on the store: a fetch with what it returned, or a write
attempt with its document, its token and whether the store accepted it. -/
inductive StoreOp where
  | fetch (document : AwsAuthData) (versionToken : Nat) : StoreOp
  | write (document : AwsAuthData) (versionToken : Nat) (accepted : Bool) : StoreOp
deriving DecidableEq, Repr

/-- The document of a write attempt. -/
def StoreOp.written : StoreOp → Option AwsAuthData
  | .fetch _ _ => none
  | .write d _ _ => some d

/-- Modelled from the spec: the function `UpdateAuthMapWithRetries`, missing
from the sources, as step 3 of section 4.4 with the bound of section 4.5, for
the arguments `remove.go` passes (the document, the handle of the fetch and
the retry configuration). It attempts the conditional write with the token it
holds; on success it is done; on a conflict with attempts remaining it fetches
again for the current token and tries again; `attempts` bounds the total
number of tries, the first included. The removal is not among its arguments,
so every attempt writes the document it was handed. The wait between attempts
is not modelled. The result is the error, the store afterwards and the store
operations made, in order. -/
def retryingWrite (d : AwsAuthData) : (attempts : Nat) → (token : Nat) → Store →
    GoError × Store × List StoreOp
  | 0, _, s => (some "conflict: attempts exhausted", s, [])
  | n + 1, token, s =>
    match s.conditionalWrite d token with
    | (none, s1) => (none, s1, [StoreOp.write d token true])
    | (some err, s1) =>
      if n = 0 then
        (some err, s1, [StoreOp.write d token false])
      else
        let f := s1.fetch
        let r := retryingWrite d n f.1.2 f.2
        (r.1, r.2.1, [StoreOp.write d token false, StoreOp.fetch f.1.1 f.1.2] ++ r.2.2)

/-- The store seen through the three operations `remove.go` calls, from a
given state: `ReadAuthMap` is the first fetch, `UpdateAuthMap` one conditional
write, and `UpdateAuthMapWithRetries` the retrying write with
`MaxRetryCount` attempts. The handle is the version token. -/
def Store.client (s : Store) : Client Nat :=
  { ReadAuthMap := .ok s.fetch.1
    UpdateAuthMap := fun d token => (s.fetch.2.conditionalWrite d token).1
    UpdateAuthMapWithRetries := fun d token r =>
      (retryingWrite d r.MaxRetryCount.toNat token s.fetch.2).1 }

/-- A role binding that a concurrent client adds. -/
def ciRole : RolesAuthMap :=
  { RoleARN := "arn:aws:iam::111:role/ci", Username := "ci", Groups := some ["system:masters"] }

/-- A user binding that a concurrent client adds. -/
def opsUser : UsersAuthMap :=
  { UserARN := "arn:aws:iam::111:user/ops", Username := "ops", Groups := none }

/-- The document after a concurrent client has added `ciRole`. -/
def secondFetched : AwsAuthData :=
  { MapRoles := [adminRole, nodeRole, ciRole], MapUsers := [adminUser, devUser] }

/-- The document after another concurrent client has added `opsUser`. -/
def thirdFetched : AwsAuthData :=
  { MapRoles := [adminRole, nodeRole, ciRole], MapUsers := [adminUser, devUser, opsUser] }

/-- A store that holds `exampleData` and rejects the first two writes of this
client as conflicts: a concurrent client commits `secondFetched` after the
first fetch, and another commits `thirdFetched` after the second. -/
def conflictingStore : Store :=
  { document := exampleData, versionToken := 0, writers := [secondFetched, thirdFetched] }

/-! ## Role bindings seen as user bindings -/

/-- The user binding with the fields of a role binding, the identifier field
renamed: `{RoleARN, Username, Groups}` becomes
`{UserARN := RoleARN, Username, Groups}`. -/
def RolesAuthMap.toUsersAuthMap (r : RolesAuthMap) : UsersAuthMap :=
  { UserARN := r.RoleARN, Username := r.Username, Groups := r.Groups }

/-! ## Basic facts -/

theorem elemsEqual_iff (xs ys : List String) : elemsEqual xs ys = true ↔ xs = ys := by
  induction xs generalizing ys with
  | nil => cases ys <;> simp [elemsEqual]
  | cons x xs ih => cases ys <;> simp [elemsEqual, ih]

theorem deepEqual_iff (a b : StringSlice) : deepEqual a b = true ↔ a = b := by
  cases a <;> cases b <;> simp [deepEqual, elemsEqual_iff]
  intro h; simp [h]

/-- The match variable in closed form. -/
theorem roleMatch_eq (e t : RolesAuthMap) :
    roleMatch e t =
      (decide (e.RoleARN = t.RoleARN) &&
        (if t.Username ≠ "" then decide (e.Username = t.Username)
         else if t.Groups.len ≠ 0 then decide (e.Groups = t.Groups) else true)) := by
  by_cases h1 : e.RoleARN = t.RoleARN <;> by_cases h2 : t.Username = "" <;>
    by_cases h3 : t.Groups.len = 0 <;> by_cases h4 : e.Username = t.Username <;>
    by_cases h5 : e.Groups = t.Groups <;>
    simp [roleMatch, Id.run, h1, h2, h3, h4, h5, deepEqual_iff]

/-- A loop that resets a flag, computes it from the element alone, and either
records a removal or appends the element, is a filter. -/
theorem forIn_filter_loop {α : Type} (p : α → Bool)
    (f : α → MProd Bool (MProd (List α) Bool) → Id (ForInStep (MProd Bool (MProd (List α) Bool))))
    (hf : ∀ a r, f a r =
      ForInStep.yield ⟨p a, if p a then r.2.1 else r.2.1 ++ [a], if p a then true else r.2.2⟩)
    (L : List α) :
    ∀ s : MProd Bool (MProd (List α) Bool),
      ((forIn L s f : Id _).2.1, (forIn L s f : Id _).2.2) =
        (s.2.1 ++ L.filter (fun a => !p a), (s.2.2 || L.any p)) := by
  induction L with
  | nil => intro s; simp [pure]
  | cons a L ih =>
    intro s
    simp only [List.forIn_cons, hf, bind]
    refine (ih ⟨p a, if p a then s.2.1 else s.2.1 ++ [a], if p a then true else s.2.2⟩).trans ?_
    cases hp : p a <;> simp [hp]

theorem removeRole_loop (L : List RolesAuthMap) (t : RolesAuthMap) :
    removeRole L t = (L.filter (fun e => !roleMatch e t), L.any (fun e => roleMatch e t)) := by
  unfold removeRole
  refine (forIn_filter_loop (fun e => roleMatch e t) _ ?_ L ⟨false, [], false⟩).trans ?_
  · intro e r
    by_cases h1 : e.RoleARN = t.RoleARN <;> by_cases h2 : t.Username = "" <;>
      by_cases h3 : t.Groups.len = 0 <;> by_cases h4 : e.Username = t.Username <;>
      by_cases h5 : e.Groups = t.Groups <;>
      simp [roleMatch, Id.run, h1, h2, h3, h4, h5, deepEqual_iff, pure]
  · simp


/-- The match variable of `removeUser` in closed form. -/
theorem userMatch_eq (e t : UsersAuthMap) :
    userMatch e t =
      (decide (e.UserARN = t.UserARN) &&
        (if t.Username ≠ "" then decide (e.Username = t.Username)
         else if t.Groups.len ≠ 0 then decide (e.Groups = t.Groups) else true)) := by
  by_cases h1 : e.UserARN = t.UserARN <;> by_cases h2 : t.Username = "" <;>
    by_cases h3 : t.Groups.len = 0 <;> by_cases h4 : e.Username = t.Username <;>
    by_cases h5 : e.Groups = t.Groups <;>
    simp [userMatch, Id.run, h1, h2, h3, h4, h5, deepEqual_iff]

theorem removeUser_loop (L : List UsersAuthMap) (t : UsersAuthMap) :
    removeUser L t = (L.filter (fun e => !userMatch e t), L.any (fun e => userMatch e t)) := by
  unfold removeUser
  refine (forIn_filter_loop (fun e => userMatch e t) _ ?_ L ⟨false, [], false⟩).trans ?_
  · intro e r
    by_cases h1 : e.UserARN = t.UserARN <;> by_cases h2 : t.Username = "" <;>
      by_cases h3 : t.Groups.len = 0 <;> by_cases h4 : e.Username = t.Username <;>
      by_cases h5 : e.Groups = t.Groups <;>
      simp [userMatch, Id.run, h1, h2, h3, h4, h5, deepEqual_iff, pure]
  · simp

/-- A role binding that matches has the identifier of the candidate. -/
theorem roleMatch_identifier (e t : RolesAuthMap) (h : roleMatch e t = true) :
    e.RoleARN = t.RoleARN := by
  rw [roleMatch_eq] at h
  simp only [Bool.and_eq_true, decide_eq_true_eq] at h
  exact h.1

/-- A user binding that matches has the identifier of the candidate. -/
theorem userMatch_identifier (e t : UsersAuthMap) (h : userMatch e t = true) :
    e.UserARN = t.UserARN := by
  rw [userMatch_eq] at h
  simp only [Bool.and_eq_true, decide_eq_true_eq] at h
  exact h.1

/-- Filtering out the elements that satisfy `m` leaves untouched every element
on which a test `q` holds, when `q` excludes `m`. -/
theorem filter_frame {α : Type} [DecidableEq α] (m q : α → Bool) (L : List α)
    (hq : ∀ a, q a = true → m a = false) :
    (∀ E, q E = true → (L.filter (fun e => !m e)).count E = L.count E) ∧
    (L.filter (fun e => !m e)).filter q = L.filter q := by
  constructor
  · intro E hE
    exact List.count_filter (by simp [hq E hE])
  · rw [List.filter_filter]
    apply List.filter_congr
    intro a _
    cases hqa : q a
    · simp
    · simp [hq a hqa]

/-- The length of a filter and the number of elements filtered out. -/
theorem filter_not_length {α : Type} (m : α → Bool) (L : List α) :
    (L.filter (fun e => !m e)).length + L.countP m = L.length := by
  induction L with
  | nil => simp
  | cons a L ih =>
    cases h : m a
    · simp [h]; omega
    · simp [h]; omega

/-- Something was filtered out exactly when the filter is shorter. -/
theorem any_iff_filter_shorter {α : Type} (m : α → Bool) (L : List α) :
    L.any m = true ↔ (L.filter (fun e => !m e)).length < L.length := by
  rw [List.length_filter_lt_length_iff_exists]
  simp

/-- Nothing filtered out leaves the list as it is. -/
theorem filter_not_of_any_false {α : Type} (m : α → Bool) (L : List α)
    (h : L.any m = false) : L.filter (fun e => !m e) = L := by
  rw [List.filter_eq_self]
  intro a ha
  rw [List.any_eq_false] at h
  simpa using h a ha

/-- A filter that returns its input filtered nothing out. -/
theorem any_false_of_filter_not_eq {α : Type} (m : α → Bool) (L : List α)
    (h : L.filter (fun e => !m e) = L) : L.any m = false := by
  rw [List.filter_eq_self] at h
  rw [List.any_eq_false]
  intro a ha
  simpa using h a ha

/-- A second filtering with the same test removes nothing. -/
theorem filter_not_idem {α : Type} (m : α → Bool) (L : List α) :
    (L.filter (fun e => !m e)).filter (fun e => !m e) = L.filter (fun e => !m e) ∧
    (L.filter (fun e => !m e)).any m = false := by
  constructor
  · rw [List.filter_filter]; simp
  · rw [List.any_eq_false]
    intro a ha
    have := (List.mem_filter.mp ha).2
    simpa using this

/-- A filter that keeps the elements failing `m` drops `E` exactly when `m E`. -/
theorem not_mem_filter_not_iff {α : Type} (m : α → Bool) (L : List α) (E : α) (hE : E ∈ L) :
    E ∉ L.filter (fun e => !m e) ↔ m E = true := by
  simp [List.mem_filter, hE]

/-- The document `Remove` builds from the fetched one when both removals find
a match: the selected sequence is replaced by the filtered one. -/
theorem Remove_exec {CM : Type} (b : AuthMapper CM) (args : RemoveArguments)
    (fetched : AwsAuthData) (configMap : CM)
    (hv : args.Validate = .ok ())
    (hr : b.KubernetesClient.ReadAuthMap = .ok (fetched, configMap)) :
    (b.Remove args).exec =
      (if args.MapRoles = true ∧
          (removeRole fetched.MapRoles
            (NewRolesAuthMap args.RoleARN args.Username args.Groups)).2 = false then
        ⟨.returned (some "could not find rolemap"), [Call.ReadAuthMap]⟩
      else if args.MapUsers = true ∧
          (removeUser fetched.MapUsers
            (NewUsersAuthMap args.UserARN args.Username args.Groups)).2 = false then
        ⟨.returned (some "could not find rolemap"), [Call.ReadAuthMap]⟩
      else
        let d1 := if args.MapRoles then fetched.SetMapRoles (removeRole fetched.MapRoles
            (NewRolesAuthMap args.RoleARN args.Username args.Groups)).1 else fetched
        let d2 := if args.MapUsers then d1.SetMapUsers (removeUser fetched.MapUsers
            (NewUsersAuthMap args.UserARN args.Username args.Groups)).1 else d1
        let retryer : RetryConfig := ⟨args.MinRetryTime, args.MaxRetryTime, args.MaxRetryCount⟩
        if args.WithRetries then
          ⟨.returned (b.KubernetesClient.UpdateAuthMapWithRetries d2 configMap retryer),
            [Call.ReadAuthMap, Call.UpdateAuthMapWithRetries d2 configMap retryer]⟩
        else
          ⟨.returned (b.KubernetesClient.UpdateAuthMap d2 configMap),
            [Call.ReadAuthMap, Call.UpdateAuthMap d2 configMap]⟩) := by
  rcases hrR : removeRole fetched.MapRoles
      (NewRolesAuthMap args.RoleARN args.Username args.Groups) with ⟨lR, okR⟩
  rcases hrU : removeUser fetched.MapUsers
      (NewUsersAuthMap args.UserARN args.Username args.Groups) with ⟨lU, okU⟩
  cases hR : args.MapRoles <;> cases hU : args.MapUsers <;> cases hW : args.WithRetries <;>
    cases okR <;> cases okU <;>
    simp [AuthMapper.Remove, Proc.exec, hv, hr, hR, hU, hW, hrR, hrU, fatalExits, ReadAuthMap,
      UpdateAuthMap, UpdateAuthMapWithRetries, AwsAuthData.SetMapRoles, AwsAuthData.SetMapUsers] <;>
    rfl

/-- The loops of `RemoveByUsername`: keep the elements that pass the test,
set the flag when one fails it. -/
theorem forIn_username_loop {m : Type → Type} [Monad m] [LawfulMonad m] {α : Type}
    (p : α → Bool) (L : List α) :
    ∀ s : MProd (List α) Bool,
      forIn L s (fun a r =>
          if p a = true then (pure (ForInStep.yield ⟨r.1 ++ [a], r.2⟩) : m _)
          else pure (ForInStep.yield ⟨r.1, true⟩)) =
        pure ⟨s.1 ++ L.filter p, s.2 || L.any (fun a => !p a)⟩ := by
  induction L with
  | nil => intro s; simp
  | cons a L ih => intro s; cases hp : p a <;> simp [ih, hp]

theorem exec_eq_runFrom {CM : Type} (p : Proc CM GoError) :
    p.exec = (match p.runFrom [] with
      | (.ok err, calls) => { outcome := .returned err, calls := calls }
      | (.error msg, calls) => { outcome := .exited msg, calls := calls }) := rfl

theorem runFrom_pure {CM α : Type} (a : α) (calls : List (Call CM)) :
    (pure a : Proc CM α).runFrom calls = (.ok a, calls) := rfl

theorem runFrom_ReadAuthMap_bind {CM α : Type} (k : Client CM)
    (F : Except String (AwsAuthData × CM) → Proc CM α) (calls : List (Call CM)) :
    (ReadAuthMap k >>= F).runFrom calls = (F k.ReadAuthMap).runFrom (calls ++ [Call.ReadAuthMap]) := rfl

theorem runFrom_UpdateAuthMap_bind {CM α : Type} (k : Client CM) (d : AwsAuthData) (cm : CM)
    (F : GoError → Proc CM α) (calls : List (Call CM)) :
    (UpdateAuthMap k d cm >>= F).runFrom calls =
      (F (k.UpdateAuthMap d cm)).runFrom (calls ++ [Call.UpdateAuthMap d cm]) := rfl

theorem runFrom_UpdateAuthMapWithRetries_bind {CM α : Type} (k : Client CM) (d : AwsAuthData)
    (cm : CM) (r : RetryConfig) (F : GoError → Proc CM α) (calls : List (Call CM)) :
    (UpdateAuthMapWithRetries k d cm r >>= F).runFrom calls =
      (F (k.UpdateAuthMapWithRetries d cm r)).runFrom
        (calls ++ [Call.UpdateAuthMapWithRetries d cm r]) := rfl

/-- What `RemoveByUsername` does once validation and the fetch have succeeded. -/
theorem RemoveByUsername_exec {CM : Type} (b : AuthMapper CM) (args : RemoveArguments)
    (fetched : AwsAuthData) (configMap : CM)
    (hv : args.Validate = .ok ())
    (hr : b.KubernetesClient.ReadAuthMap = .ok (fetched, configMap)) :
    (b.RemoveByUsername args).exec =
      (if (fetched.MapRoles.any (fun e => decide (e.Username = args.Username)) ||
            fetched.MapUsers.any (fun e => decide (e.Username = args.Username))) = false then
        ⟨.returned (some (zeroMatchesMsg args.Username)), [Call.ReadAuthMap]⟩
      else
        let d : AwsAuthData :=
          { MapRoles := fetched.MapRoles.filter (fun e => decide (e.Username ≠ args.Username))
            MapUsers := fetched.MapUsers.filter (fun e => decide (e.Username ≠ args.Username)) }
        let retryer : RetryConfig := ⟨args.MinRetryTime, args.MaxRetryTime, args.MaxRetryCount⟩
        if args.WithRetries then
          ⟨.returned (b.KubernetesClient.UpdateAuthMapWithRetries d configMap retryer),
            [Call.ReadAuthMap, Call.UpdateAuthMapWithRetries d configMap retryer]⟩
        else
          ⟨.returned (b.KubernetesClient.UpdateAuthMap d configMap),
            [Call.ReadAuthMap, Call.UpdateAuthMap d configMap]⟩) := by
  have e0 : ∀ x : String, (args.Username != x) = decide (x ≠ args.Username) := by
    intro x
    by_cases h : x = args.Username
    · simp [h]
    · have h' : ¬ args.Username = x := fun h' => h h'.symm
      simp [h, h']
  simp only [AuthMapper.RemoveByUsername, hv, fatalExits, pure_bind, forIn_username_loop,
    e0, List.nil_append, Bool.false_or, decide_not, Bool.not_not, exec_eq_runFrom,
    runFrom_ReadAuthMap_bind, hr]
  generalize (fetched.MapRoles.any (fun e => decide (e.Username = args.Username)) ||
    fetched.MapUsers.any (fun e => decide (e.Username = args.Username))) = c
  cases hW : args.WithRetries <;> cases c <;>
    simp [runFrom_pure, runFrom_UpdateAuthMap_bind, runFrom_UpdateAuthMapWithRetries_bind,
      AwsAuthData.SetMapRoles, AwsAuthData.SetMapUsers] <;>
    rfl


/-! ## Matching semantics of `removeRole` and `removeUser` -/

/-- Claim C1, evaluated on the code: with a candidate that sets both username
and groups, `removeRole` and `removeUser` drop a binding whose identifier and
username agree with the candidate although its groups differ. -/
theorem C1_username_overrides_groups :
    removeRole [adminRole]
        { RoleARN := "arn:aws:iam::111:role/admin", Username := "admin", Groups := some ["other"] } =
      ([], true) ∧
    removeUser [adminUser]
        { UserARN := "arn:aws:iam::111:user/admin", Username := "admin", Groups := some ["other"] } =
      ([], true) := by
  decide

/-- Claim C2: for a candidate with non-empty groups and empty username,
`removeRole` and `removeUser` drop a binding exactly when its identifier and
its groups (as an ordered sequence) equal the candidate's; the username of the
binding plays no part. -/
theorem C2_groups_without_username (L : List RolesAuthMap) (C : RolesAuthMap)
    (LU : List UsersAuthMap) (CU : UsersAuthMap)
    (hg : C.Groups.len ≠ 0) (hu : C.Username = "")
    (hgU : CU.Groups.len ≠ 0) (huU : CU.Username = "") :
    ((removeRole L C).1 =
        L.filter (fun E => decide (¬ (E.RoleARN = C.RoleARN ∧ E.Groups = C.Groups))) ∧
      ∀ E ∈ L, E ∉ (removeRole L C).1 ↔ (E.RoleARN = C.RoleARN ∧ E.Groups = C.Groups)) ∧
    ((removeUser LU CU).1 =
        LU.filter (fun E => decide (¬ (E.UserARN = CU.UserARN ∧ E.Groups = CU.Groups))) ∧
      ∀ E ∈ LU, E ∉ (removeUser LU CU).1 ↔ (E.UserARN = CU.UserARN ∧ E.Groups = CU.Groups)) := by
  have hm : ∀ E, roleMatch E C = decide (E.RoleARN = C.RoleARN ∧ E.Groups = C.Groups) := by
    intro E; simp [roleMatch_eq, hu, hg, Bool.decide_and]
  have hmU : ∀ E, userMatch E CU = decide (E.UserARN = CU.UserARN ∧ E.Groups = CU.Groups) := by
    intro E; simp [userMatch_eq, huU, hgU, Bool.decide_and]
  refine ⟨⟨?_, ?_⟩, ⟨?_, ?_⟩⟩
  · rw [removeRole_loop]; simp [hm]
  · intro E hE
    rw [removeRole_loop]
    exact (not_mem_filter_not_iff _ L E hE).trans (by simp [hm])
  · rw [removeUser_loop]; simp [hmU]
  · intro E hE
    rw [removeUser_loop]
    exact (not_mem_filter_not_iff _ LU E hE).trans (by simp [hmU])

/-- Witness for C2: the example of the specification. The candidate with groups
`other` removes nothing from the one-element list, and the candidate with the
binding's own groups removes it. -/
theorem C2_groups_without_username_witness :
    (removeRole [adminRole]
        { RoleARN := "arn:aws:iam::111:role/admin", Username := "", Groups := some ["other"] }).1 =
      [adminRole] ∧
    (removeUser [adminUser, devUser]
        { UserARN := "arn:aws:iam::111:user/admin", Username := "",
          Groups := some ["system:masters"] }).1 = [devUser] := by
  have h := C2_groups_without_username [adminRole]
    { RoleARN := "arn:aws:iam::111:role/admin", Username := "", Groups := some ["other"] }
    [adminUser, devUser]
    { UserARN := "arn:aws:iam::111:user/admin", Username := "", Groups := some ["system:masters"] }
    (by decide) (by decide) (by decide) (by decide)
  exact ⟨h.1.1.trans (by decide), h.2.1.trans (by decide)⟩

/-- Claim C3: for a candidate with empty username and empty groups,
`removeRole` and `removeUser` drop exactly the bindings whose identifier equals
the candidate's: the result is the input filtered to the other identifiers, so
every binding with the identifier is removed, duplicates included, whatever its
username and groups, and no other binding is removed. -/
theorem C3_identifier_alone (L : List RolesAuthMap) (C : RolesAuthMap)
    (LU : List UsersAuthMap) (CU : UsersAuthMap)
    (hg : C.Groups.len = 0) (hu : C.Username = "")
    (hgU : CU.Groups.len = 0) (huU : CU.Username = "") :
    ((removeRole L C).1 = L.filter (fun E => decide (E.RoleARN ≠ C.RoleARN)) ∧
      ∀ E ∈ L, E ∉ (removeRole L C).1 ↔ E.RoleARN = C.RoleARN) ∧
    ((removeUser LU CU).1 = LU.filter (fun E => decide (E.UserARN ≠ CU.UserARN)) ∧
      ∀ E ∈ LU, E ∉ (removeUser LU CU).1 ↔ E.UserARN = CU.UserARN) := by
  have hm : ∀ E, roleMatch E C = decide (E.RoleARN = C.RoleARN) := by
    intro E; simp [roleMatch_eq, hu, hg]
  have hmU : ∀ E, userMatch E CU = decide (E.UserARN = CU.UserARN) := by
    intro E; simp [userMatch_eq, huU, hgU]
  refine ⟨⟨?_, ?_⟩, ⟨?_, ?_⟩⟩
  · rw [removeRole_loop]; simp [hm]
  · intro E hE
    rw [removeRole_loop]
    exact (not_mem_filter_not_iff _ L E hE).trans (by simp [hm])
  · rw [removeUser_loop]; simp [hmU]
  · intro E hE
    rw [removeUser_loop]
    exact (not_mem_filter_not_iff _ LU E hE).trans (by simp [hmU])

/-- Witness for C3: a candidate carrying only the identifier removes both
copies of the admin binding and a third binding with the same identifier but
another username and no groups, and keeps the node binding. -/
theorem C3_identifier_alone_witness :
    (removeRole
        [adminRole, nodeRole, adminRole,
          { RoleARN := "arn:aws:iam::111:role/admin", Username := "ops", Groups := none }]
        { RoleARN := "arn:aws:iam::111:role/admin", Username := "", Groups := none }).1 =
      [nodeRole] ∧
    (removeUser [adminUser, devUser]
        { UserARN := "arn:aws:iam::111:user/dev", Username := "", Groups := some [] }).1 =
      [adminUser] := by
  have h := C3_identifier_alone
    [adminRole, nodeRole, adminRole,
      { RoleARN := "arn:aws:iam::111:role/admin", Username := "ops", Groups := none }]
    { RoleARN := "arn:aws:iam::111:role/admin", Username := "", Groups := none }
    [adminUser, devUser]
    { UserARN := "arn:aws:iam::111:user/dev", Username := "", Groups := some [] }
    (by decide) (by decide) (by decide) (by decide)
  exact ⟨h.1.1.trans (by decide), h.2.1.trans (by decide)⟩

/-- Claim C4: whatever the candidate's username and groups, `removeRole` and
`removeUser` never drop a binding whose identifier differs from the
candidate's: such a binding occurs in the result as often as in the input, and
the bindings with other identifiers are the same sequence before and after. -/
theorem C4_other_identifiers_kept (L : List RolesAuthMap) (C : RolesAuthMap)
    (LU : List UsersAuthMap) (CU : UsersAuthMap) :
    (∀ E, E.RoleARN ≠ C.RoleARN →
      (E ∈ L → E ∈ (removeRole L C).1) ∧ (removeRole L C).1.count E = L.count E) ∧
    (removeRole L C).1.filter (fun E => decide (E.RoleARN ≠ C.RoleARN)) =
      L.filter (fun E => decide (E.RoleARN ≠ C.RoleARN)) ∧
    (∀ E, E.UserARN ≠ CU.UserARN →
      (E ∈ LU → E ∈ (removeUser LU CU).1) ∧ (removeUser LU CU).1.count E = LU.count E) ∧
    (removeUser LU CU).1.filter (fun E => decide (E.UserARN ≠ CU.UserARN)) =
      LU.filter (fun E => decide (E.UserARN ≠ CU.UserARN)) := by
  have hq : ∀ a : RolesAuthMap, decide (a.RoleARN ≠ C.RoleARN) = true → roleMatch a C = false := by
    intro a ha
    cases hm : roleMatch a C
    · rfl
    · exact absurd (roleMatch_identifier a C hm) (by simpa using ha)
  have hqU : ∀ a : UsersAuthMap, decide (a.UserARN ≠ CU.UserARN) = true → userMatch a CU = false := by
    intro a ha
    cases hm : userMatch a CU
    · rfl
    · exact absurd (userMatch_identifier a CU hm) (by simpa using ha)
  have h := filter_frame (fun e => roleMatch e C) (fun E => decide (E.RoleARN ≠ C.RoleARN)) L hq
  have hU := filter_frame (fun e => userMatch e CU) (fun E => decide (E.UserARN ≠ CU.UserARN)) LU hqU
  rw [removeRole_loop, removeUser_loop]
  refine ⟨?_, h.2, ?_, hU.2⟩
  · intro E hE
    have hc := h.1 E (by simpa using hE)
    refine ⟨fun hmem => ?_, hc⟩
    have hpos : 0 < L.count E := List.count_pos_iff.mpr hmem
    exact List.count_pos_iff.mp (by simpa [hc] using hpos)
  · intro E hE
    have hc := hU.1 E (by simpa using hE)
    refine ⟨fun hmem => ?_, hc⟩
    have hpos : 0 < LU.count E := List.count_pos_iff.mpr hmem
    exact List.count_pos_iff.mp (by simpa [hc] using hpos)

/-- Witness for C4: removing the admin role with a full candidate keeps the
node binding, and removing the dev user keeps the admin user. -/
theorem C4_other_identifiers_kept_witness :
    nodeRole ∈ (removeRole [adminRole, nodeRole] adminRole).1 ∧
    adminUser ∈ (removeUser [adminUser, devUser] devUser).1 := by
  have h := C4_other_identifiers_kept [adminRole, nodeRole] adminRole [adminUser, devUser] devUser
  exact ⟨(h.1 nodeRole (by decide)).1 (by decide), (h.2.2.1 adminUser (by decide)).1 (by decide)⟩

/-- Claim C5: the list returned by `removeRole` (and `removeUser`) is the input
filtered to the bindings that do not match the candidate, in their original
order and unmodified, and the number of bindings removed is the number of
bindings of the input that match. -/
theorem C5_result_is_filter (L : List RolesAuthMap) (C : RolesAuthMap)
    (LU : List UsersAuthMap) (CU : UsersAuthMap) :
    ((removeRole L C).1 = L.filter (fun E => !roleMatch E C) ∧
      (removeRole L C).1.Sublist L ∧
      L.length - (removeRole L C).1.length = L.countP (fun E => roleMatch E C) ∧
      (removeRole L C).1.length + L.countP (fun E => roleMatch E C) = L.length) ∧
    ((removeUser LU CU).1 = LU.filter (fun E => !userMatch E CU) ∧
      (removeUser LU CU).1.Sublist LU ∧
      LU.length - (removeUser LU CU).1.length = LU.countP (fun E => userMatch E CU) ∧
      (removeUser LU CU).1.length + LU.countP (fun E => userMatch E CU) = LU.length) := by
  have h := filter_not_length (fun E => roleMatch E C) L
  have hU := filter_not_length (fun E => userMatch E CU) LU
  rw [removeRole_loop, removeUser_loop]
  refine ⟨⟨rfl, List.filter_sublist _, ?_, h⟩, ⟨rfl, List.filter_sublist _, ?_, hU⟩⟩
  · simp only; omega
  · simp only; omega

/-- Claim C6: the boolean returned by `removeRole` (and `removeUser`) is true
exactly when the returned list is strictly shorter than the input, and when it
is false the returned list is the input. -/
theorem C6_changed_flag (L : List RolesAuthMap) (C : RolesAuthMap)
    (LU : List UsersAuthMap) (CU : UsersAuthMap) :
    (((removeRole L C).2 = true ↔ (removeRole L C).1.length < L.length) ∧
      ((removeRole L C).2 = false → (removeRole L C).1 = L)) ∧
    (((removeUser LU CU).2 = true ↔ (removeUser LU CU).1.length < LU.length) ∧
      ((removeUser LU CU).2 = false → (removeUser LU CU).1 = LU)) := by
  rw [removeRole_loop, removeUser_loop]
  exact ⟨⟨any_iff_filter_shorter _ L, filter_not_of_any_false _ L⟩,
    ⟨any_iff_filter_shorter _ LU, filter_not_of_any_false _ LU⟩⟩

/-- Witness for C6: a candidate that matches nothing returns the input and
false; one that matches returns a shorter list and true. -/
theorem C6_changed_flag_witness :
    (removeRole [adminRole, nodeRole]
        { RoleARN := "arn:aws:iam::111:role/admin", Username := "", Groups := some ["other"] }).1 =
      [adminRole, nodeRole] ∧
    (removeUser [adminUser, devUser] devUser).1.length < [adminUser, devUser].length := by
  have h := C6_changed_flag [adminRole, nodeRole]
    { RoleARN := "arn:aws:iam::111:role/admin", Username := "", Groups := some ["other"] }
    [adminUser, devUser] devUser
  exact ⟨h.1.2 (by decide), h.2.1.mp (by decide)⟩

/-- Claim C7: removal is idempotent. Applying `removeRole` (or `removeUser`)
with the same candidate to the list it returned gives that list back with
changed = false. -/
theorem C7_idempotent (L : List RolesAuthMap) (C : RolesAuthMap)
    (LU : List UsersAuthMap) (CU : UsersAuthMap) :
    removeRole (removeRole L C).1 C = ((removeRole L C).1, false) ∧
    removeUser (removeUser LU CU).1 CU = ((removeUser LU CU).1, false) := by
  have h := filter_not_idem (fun E => roleMatch E C) L
  have hU := filter_not_idem (fun E => userMatch E CU) LU
  constructor
  · rw [removeRole_loop L C, removeRole_loop]
    exact Prod.ext h.1 h.2
  · rw [removeUser_loop LU CU, removeUser_loop]
    exact Prod.ext hU.1 hU.2

/-! ## `Remove` and `RemoveByUsername` -/

/-- An invocation whose arguments `Validate` rejects ends the process before any
store call. -/
theorem exec_invalid {CM : Type} (b : AuthMapper CM) (args : RemoveArguments) (msg : String)
    (hv : args.Validate = .error msg) :
    (b.Remove args).exec = ⟨.exited msg, []⟩ ∧
    (b.RemoveByUsername args).exec = ⟨.exited msg, []⟩ := by
  constructor
  · simp only [AuthMapper.Remove, hv, fatalExits]; rfl
  · simp only [AuthMapper.RemoveByUsername, hv, fatalExits]; rfl

/-- A failed fetch is returned as it is, after the one call of `ReadAuthMap`. -/
theorem exec_fetch_error {CM : Type} (b : AuthMapper CM) (args : RemoveArguments) (err : String)
    (hv : args.Validate = .ok ())
    (hr : b.KubernetesClient.ReadAuthMap = .error err) :
    (b.Remove args).exec = ⟨.returned (some err), [Call.ReadAuthMap]⟩ ∧
    (b.RemoveByUsername args).exec = ⟨.returned (some err), [Call.ReadAuthMap]⟩ := by
  constructor
  · simp only [AuthMapper.Remove, hv, fatalExits, pure_bind, exec_eq_runFrom,
      runFrom_ReadAuthMap_bind, hr]
    rfl
  · simp only [AuthMapper.RemoveByUsername, hv, fatalExits, pure_bind, exec_eq_runFrom,
      runFrom_ReadAuthMap_bind, hr]
    rfl

/-- Claim C8: whenever `RemoveByUsername` hands a document to a write, the fetch
had succeeded and the document's MapRoles is the fetched MapRoles filtered to
the bindings whose username differs from the target, and its MapUsers the
fetched MapUsers filtered the same way, both in the original order, whatever
the MapRoles and MapUsers flags of the arguments are. -/
theorem C8_RemoveByUsername_written {CM : Type} (b : AuthMapper CM) (args : RemoveArguments)
    (c : Call CM) (d : AwsAuthData)
    (hc : c ∈ (b.RemoveByUsername args).exec.calls) (hd : c.written = some d) :
    ∃ fetched configMap, b.KubernetesClient.ReadAuthMap = .ok (fetched, configMap) ∧
      d.MapRoles = fetched.MapRoles.filter (fun e => decide (e.Username ≠ args.Username)) ∧
      d.MapUsers = fetched.MapUsers.filter (fun e => decide (e.Username ≠ args.Username)) := by
  cases hv : args.Validate with
  | error msg =>
    rw [(exec_invalid b args msg hv).2] at hc
    simp at hc
  | ok u =>
    cases hr : b.KubernetesClient.ReadAuthMap with
    | error err =>
      rw [(exec_fetch_error b args err hv hr).2] at hc
      simp only [List.mem_singleton] at hc
      subst hc
      simp [Call.written] at hd
    | ok r =>
      obtain ⟨fetched, configMap⟩ := r
      refine ⟨fetched, configMap, rfl, ?_⟩
      rw [RemoveByUsername_exec b args fetched configMap hv hr] at hc
      split at hc
      · simp only [List.mem_singleton] at hc
        subst hc
        simp [Call.written] at hd
      · split at hc
        · simp only [List.mem_cons, List.mem_singleton, List.not_mem_nil, or_false] at hc
          rcases hc with hc | hc
          · subst hc; simp [Call.written] at hd
          · subst hc
            simp only [Call.written, Option.some.injEq] at hd
            subst hd
            exact ⟨rfl, rfl⟩
        · simp only [List.mem_cons, List.mem_singleton, List.not_mem_nil, or_false] at hc
          rcases hc with hc | hc
          · subst hc; simp [Call.written] at hd
          · subst hc
            simp only [Call.written, Option.some.injEq] at hd
            subst hd
            exact ⟨rfl, rfl⟩

/-- Witness for C8: with only the global flag set and username `admin`, the
document written for `exampleData` keeps the node role and the dev user. -/
theorem C8_RemoveByUsername_written_witness :
    ∃ fetched configMap, exampleClient.ReadAuthMap = .ok (fetched, configMap) ∧
      ({ MapRoles := [nodeRole], MapUsers := [devUser] } : AwsAuthData).MapRoles =
        fetched.MapRoles.filter (fun e => decide (e.Username ≠ "admin")) ∧
      ({ MapRoles := [nodeRole], MapUsers := [devUser] } : AwsAuthData).MapUsers =
        fetched.MapUsers.filter (fun e => decide (e.Username ≠ "admin")) :=
  C8_RemoveByUsername_written ⟨exampleClient, false⟩
    { noArguments with IsGlobal := true, Username := "admin" }
    (Call.UpdateAuthMap { MapRoles := [nodeRole], MapUsers := [devUser] } 7)
    { MapRoles := [nodeRole], MapUsers := [devUser] } (by decide) (by decide)

/-- Claim C9: with valid arguments and a successful fetch, `RemoveByUsername`
returns the zero-matches error without any write exactly when no role binding
and no user binding of the fetched document has the username; when some
binding has it, the write is attempted, right after the fetch, with the
handle obtained by the fetch. -/
theorem C9_RemoveByUsername_no_match {CM : Type} (b : AuthMapper CM) (args : RemoveArguments)
    (fetched : AwsAuthData) (configMap : CM)
    (hv : args.Validate = .ok ())
    (hr : b.KubernetesClient.ReadAuthMap = .ok (fetched, configMap)) :
    (((b.RemoveByUsername args).exec.outcome = .returned (some (zeroMatchesMsg args.Username)) ∧
        ∀ c ∈ (b.RemoveByUsername args).exec.calls, c.isWrite = false) ↔
      ((∀ e ∈ fetched.MapRoles, e.Username ≠ args.Username) ∧
        ∀ e ∈ fetched.MapUsers, e.Username ≠ args.Username)) ∧
    (((∃ e ∈ fetched.MapRoles, e.Username = args.Username) ∨
        ∃ e ∈ fetched.MapUsers, e.Username = args.Username) →
      ∃ c d, (b.RemoveByUsername args).exec.calls = [Call.ReadAuthMap, c] ∧
        c.isWrite = true ∧ c.written = some d ∧
        (c = Call.UpdateAuthMap d configMap ∨
          c = Call.UpdateAuthMapWithRetries d configMap
            ⟨args.MinRetryTime, args.MaxRetryTime, args.MaxRetryCount⟩)) := by
  rw [RemoveByUsername_exec b args fetched configMap hv hr]
  by_cases hm : (fetched.MapRoles.any (fun e => decide (e.Username = args.Username)) ||
      fetched.MapUsers.any (fun e => decide (e.Username = args.Username))) = false
  · have hm' := hm
    simp only [Bool.or_eq_false_iff, List.any_eq_false, decide_eq_true_eq] at hm'
    rw [if_pos hm]
    refine ⟨⟨fun _ => hm', fun _ => ⟨rfl, by simp [Call.isWrite]⟩⟩, ?_⟩
    rintro (⟨e, he, h⟩ | ⟨e, he, h⟩)
    · exact absurd h (hm'.1 e he)
    · exact absurd h (hm'.2 e he)
  · have hm' := hm
    simp only [Bool.or_eq_false_iff, List.any_eq_false, decide_eq_true_eq] at hm'
    rw [if_neg hm]
    cases hW : args.WithRetries
    · refine ⟨⟨fun h => ?_, fun h => absurd h hm'⟩, fun _ => ⟨_, _, rfl, rfl, rfl, Or.inl rfl⟩⟩
      have := h.2 _ (List.mem_cons_of_mem _ (List.mem_singleton_self _))
      simp [Call.isWrite] at this
    · refine ⟨⟨fun h => ?_, fun h => absurd h hm'⟩, fun _ => ⟨_, _, rfl, rfl, rfl, Or.inr rfl⟩⟩
      have := h.2 _ (List.mem_cons_of_mem _ (List.mem_singleton_self _))
      simp [Call.isWrite] at this

/-- Witness for C9: nobody in `exampleData` is called `nobody`, so the
invocation returns the zero-matches error and makes no write. -/
theorem C9_RemoveByUsername_no_match_witness :
    (AuthMapper.RemoveByUsername ⟨exampleClient, false⟩
        { noArguments with IsGlobal := true, Username := "nobody" }).exec.outcome =
      .returned (some (zeroMatchesMsg "nobody")) ∧
    ∀ c ∈ (AuthMapper.RemoveByUsername ⟨exampleClient, false⟩
        { noArguments with IsGlobal := true, Username := "nobody" }).exec.calls,
      c.isWrite = false :=
  (C9_RemoveByUsername_no_match ⟨exampleClient, false⟩
    { noArguments with IsGlobal := true, Username := "nobody" } exampleData 7 rfl rfl).1.mpr
    ⟨by decide, by decide⟩

/-- Claim C10, refuted as stated: arguments with only `IsGlobal` set are
accepted by `Validate`; the fetch succeeds; `Remove` applies no removal, so no
binding is dropped, and yet it writes the fetched document back and returns
success. -/
theorem C10_global_arguments_write :
    RemoveArguments.Validate { noArguments with IsGlobal := true } = .ok () ∧
    exampleClient.ReadAuthMap = .ok (exampleData, 7) ∧
    (AuthMapper.Remove ⟨exampleClient, false⟩ { noArguments with IsGlobal := true }).exec =
      ⟨.returned none, [Call.ReadAuthMap, Call.UpdateAuthMap exampleData 7]⟩ :=
  ⟨rfl, rfl, by decide⟩

/-- Claim C10, amended: for arguments accepted by `Validate` that select a kind
(MapRoles or MapUsers) and a successfully fetched document, if the removal
leaves the selected sequence as it was fetched (no binding is dropped), then
`Remove` makes no write, its only store call being the fetch, and returns the
error `could not find rolemap`. -/
theorem C10_no_match_no_write {CM : Type} (b : AuthMapper CM) (args : RemoveArguments)
    (fetched : AwsAuthData) (configMap : CM)
    (hv : args.Validate = .ok ())
    (hr : b.KubernetesClient.ReadAuthMap = .ok (fetched, configMap))
    (hsel : args.MapRoles = true ∨ args.MapUsers = true)
    (hroles : args.MapRoles = true →
      (removeRole fetched.MapRoles
        (NewRolesAuthMap args.RoleARN args.Username args.Groups)).1 = fetched.MapRoles)
    (husers : args.MapUsers = true →
      (removeUser fetched.MapUsers
        (NewUsersAuthMap args.UserARN args.Username args.Groups)).1 = fetched.MapUsers) :
    (b.Remove args).exec = ⟨.returned (some "could not find rolemap"), [Call.ReadAuthMap]⟩ ∧
    ∀ c ∈ (b.Remove args).exec.calls, c.isWrite = false := by
  have key : (b.Remove args).exec =
      ⟨.returned (some "could not find rolemap"), [Call.ReadAuthMap]⟩ := by
    rw [Remove_exec b args fetched configMap hv hr]
    by_cases hR : args.MapRoles = true
    · have h2 : (removeRole fetched.MapRoles
          (NewRolesAuthMap args.RoleARN args.Username args.Groups)).2 = false := by
        have h1 := hroles hR
        rw [removeRole_loop] at h1 ⊢
        exact any_false_of_filter_not_eq _ _ h1
      rw [if_pos ⟨hR, h2⟩]
    · have hU : args.MapUsers = true := hsel.resolve_left hR
      have h2 : (removeUser fetched.MapUsers
          (NewUsersAuthMap args.UserARN args.Username args.Groups)).2 = false := by
        have h1 := husers hU
        rw [removeUser_loop] at h1 ⊢
        exact any_false_of_filter_not_eq _ _ h1
      rw [if_neg (fun h => hR h.1), if_pos ⟨hU, h2⟩]
  refine ⟨key, ?_⟩
  rw [key]
  intro c hc
  simp only [List.mem_singleton] at hc
  subst hc
  rfl

/-- Witness for C10: the second example of the specification. Removing the
admin role with groups `other` from `exampleData` drops nothing, so `Remove`
returns the error after the fetch alone. -/
theorem C10_no_match_no_write_witness :
    (AuthMapper.Remove ⟨exampleClient, false⟩
        { noArguments with MapRoles := true, RoleARN := "arn:aws:iam::111:role/admin",
                           Groups := some ["other"] }).exec =
      ⟨.returned (some "could not find rolemap"), [Call.ReadAuthMap]⟩ :=
  (C10_no_match_no_write ⟨exampleClient, false⟩
    { noArguments with MapRoles := true, RoleARN := "arn:aws:iam::111:role/admin",
                       Groups := some ["other"] }
    exampleData 7 rfl rfl (Or.inl rfl) (fun _ => by decide) (fun h => absurd h (by decide))).1

/-! ## Validation -/

/-- The checks of `RemoveArguments.Validate` in order: the first one that fails
gives the fatal message. -/
theorem RemoveArguments.Validate_remove_checks (args : RemoveArguments) :
    args.Validate =
      (if args.WithRetries = true ∧ args.MaxRetryCount < 1 then
        .error "error: --retry-max-count is invalid, must be greater than zero"
      else if args.RoleARN = "" ∧ args.MapRoles = true then
        .error "error: --rolearn not provided"
      else if args.UserARN = "" ∧ args.MapUsers = true then
        .error "error: --userarn not provided"
      else if args.MapUsers = true ∧ args.MapRoles = true then
        .error "error: --mapusers and --maproles are mutually exclusive"
      else if args.MapUsers = false ∧ args.MapRoles = false ∧ args.IsGlobal = false then
        .error "error: must select --mapusers or --maproles"
      else .ok ()) := by
  cases hW : args.WithRetries <;> cases hR : args.MapRoles <;> cases hU : args.MapUsers <;>
    cases hG : args.IsGlobal <;> by_cases hc : args.MaxRetryCount < 1 <;>
    by_cases hr : args.RoleARN = "" <;> by_cases hu : args.UserARN = "" <;>
    simp [RemoveArguments.Validate, hW, hR, hU, hG, hc, hr, hu] <;> rfl

/-- The checks of `UpsertArguments.Validate` in order. -/
theorem UpsertArguments.Validate_upsert_checks (args : UpsertArguments) :
    args.Validate =
      (if args.WithRetries = true ∧ args.MaxRetryCount < 1 then
        .error "error: --retry-max-count is invalid, must be greater than zero"
      else if args.RoleARN = "" ∧ args.MapRoles = true then
        .error "error: --rolearn not provided"
      else if args.UserARN = "" ∧ args.MapUsers = true then
        .error "error: --userarn not provided"
      else if args.Username = "" then
        .error "error: --username not provided"
      else if args.MapUsers = true ∧ args.MapRoles = true then
        .error "error: --mapusers and --maproles are mutually exclusive"
      else if args.MapUsers = false ∧ args.MapRoles = false then
        .error "error: must select --mapusers or --maproles"
      else .ok ()) := by
  cases hW : args.WithRetries <;> cases hR : args.MapRoles <;> cases hU : args.MapUsers <;>
    by_cases hc : args.MaxRetryCount < 1 <;>
    by_cases hr : args.RoleARN = "" <;> by_cases hu : args.UserARN = "" <;>
    by_cases hn : args.Username = "" <;>
    simp [UpsertArguments.Validate, hW, hR, hU, hc, hr, hu, hn] <;> rfl

/-- When `Validate` accepts: every check passes. -/
theorem RemoveArguments.Validate_ok_iff (args : RemoveArguments) :
    args.Validate = .ok () ↔
      ((args.WithRetries = true → 1 ≤ args.MaxRetryCount) ∧
        (args.MapRoles = true → args.RoleARN ≠ "") ∧
        (args.MapUsers = true → args.UserARN ≠ "") ∧
        ¬ (args.MapRoles = true ∧ args.MapUsers = true) ∧
        (args.MapRoles = true ∨ args.MapUsers = true ∨ args.IsGlobal = true)) := by
  rw [RemoveArguments.Validate_remove_checks]
  cases hW : args.WithRetries <;> cases hR : args.MapRoles <;> cases hU : args.MapUsers <;>
    cases hG : args.IsGlobal <;> by_cases hc : args.MaxRetryCount < 1 <;>
    by_cases hr : args.RoleARN = "" <;> by_cases hu : args.UserARN = "" <;>
    simp [hc, hr, hu] <;> omega

/-- What `Remove` does once validation and the fetch have succeeded and every
selected removal has found a match: one write call with the fetched document
in which the selected sequence is replaced. -/
theorem Remove_exec_removed {CM : Type} (b : AuthMapper CM) (args : RemoveArguments)
    (fetched : AwsAuthData) (configMap : CM)
    (hv : args.Validate = .ok ())
    (hr : b.KubernetesClient.ReadAuthMap = .ok (fetched, configMap))
    (hroles : args.MapRoles = true → (removeRole fetched.MapRoles
      (NewRolesAuthMap args.RoleARN args.Username args.Groups)).2 = true)
    (husers : args.MapUsers = true → (removeUser fetched.MapUsers
      (NewUsersAuthMap args.UserARN args.Username args.Groups)).2 = true) :
    (b.Remove args).exec =
      (let d : AwsAuthData :=
        { MapRoles := if args.MapRoles then (removeRole fetched.MapRoles
            (NewRolesAuthMap args.RoleARN args.Username args.Groups)).1 else fetched.MapRoles
          MapUsers := if args.MapUsers then (removeUser fetched.MapUsers
            (NewUsersAuthMap args.UserARN args.Username args.Groups)).1 else fetched.MapUsers }
       let retryer : RetryConfig := ⟨args.MinRetryTime, args.MaxRetryTime, args.MaxRetryCount⟩
       if args.WithRetries then
         ⟨.returned (b.KubernetesClient.UpdateAuthMapWithRetries d configMap retryer),
           [Call.ReadAuthMap, Call.UpdateAuthMapWithRetries d configMap retryer]⟩
       else
         ⟨.returned (b.KubernetesClient.UpdateAuthMap d configMap),
           [Call.ReadAuthMap, Call.UpdateAuthMap d configMap]⟩) := by
  rw [Remove_exec b args fetched configMap hv hr]
  have h1 : ¬ (args.MapRoles = true ∧ (removeRole fetched.MapRoles
      (NewRolesAuthMap args.RoleARN args.Username args.Groups)).2 = false) := by
    rintro ⟨h, h'⟩; rw [hroles h] at h'; exact Bool.noConfusion h'
  have h2 : ¬ (args.MapUsers = true ∧ (removeUser fetched.MapUsers
      (NewUsersAuthMap args.UserARN args.Username args.Groups)).2 = false) := by
    rintro ⟨h, h'⟩; rw [husers h] at h'; exact Bool.noConfusion h'
  rw [if_neg h1, if_neg h2]
  cases hR : args.MapRoles <;> cases hU : args.MapUsers <;>
    simp [AwsAuthData.SetMapRoles, AwsAuthData.SetMapUsers]

/-- What `RemoveByUsername` does once validation and the fetch have succeeded
and some binding has the username. -/
theorem RemoveByUsername_exec_removed {CM : Type} (b : AuthMapper CM) (args : RemoveArguments)
    (fetched : AwsAuthData) (configMap : CM)
    (hv : args.Validate = .ok ())
    (hr : b.KubernetesClient.ReadAuthMap = .ok (fetched, configMap))
    (hm : (∃ e ∈ fetched.MapRoles, e.Username = args.Username) ∨
      ∃ e ∈ fetched.MapUsers, e.Username = args.Username) :
    (b.RemoveByUsername args).exec =
      (let d : AwsAuthData :=
        { MapRoles := fetched.MapRoles.filter (fun e => decide (e.Username ≠ args.Username))
          MapUsers := fetched.MapUsers.filter (fun e => decide (e.Username ≠ args.Username)) }
       let retryer : RetryConfig := ⟨args.MinRetryTime, args.MaxRetryTime, args.MaxRetryCount⟩
       if args.WithRetries then
         ⟨.returned (b.KubernetesClient.UpdateAuthMapWithRetries d configMap retryer),
           [Call.ReadAuthMap, Call.UpdateAuthMapWithRetries d configMap retryer]⟩
       else
         ⟨.returned (b.KubernetesClient.UpdateAuthMap d configMap),
           [Call.ReadAuthMap, Call.UpdateAuthMap d configMap]⟩) := by
  rw [RemoveByUsername_exec b args fetched configMap hv hr]
  have h1 : ¬ ((fetched.MapRoles.any (fun e => decide (e.Username = args.Username)) ||
      fetched.MapUsers.any (fun e => decide (e.Username = args.Username))) = false) := by
    simp only [Bool.or_eq_false_iff, List.any_eq_false, decide_eq_true_eq]
    rintro ⟨h, h'⟩
    rcases hm with ⟨e, he, hx⟩ | ⟨e, he, hx⟩
    · exact h e he hx
    · exact h' e he hx
  rw [if_neg h1]

/-! ## The write after a removal -/

/-- Every write attempt of the retrying write carries the document it was
handed, and after a success that document is the one in the store. -/
theorem retryingWrite_document (d : AwsAuthData) (n : Nat) :
    ∀ (token : Nat) (s : Store),
      (∀ op ∈ (retryingWrite d n token s).2.2, ∀ d', op.written = some d' → d' = d) ∧
      ((retryingWrite d n token s).1 = none →
        (retryingWrite d n token s).2.1.document = d) := by
  induction n with
  | zero => intro token s; simp [retryingWrite]
  | succ n ih =>
    intro token s
    by_cases ht : token = s.versionToken
    · simp [retryingWrite, Store.conditionalWrite, ht, StoreOp.written]
    · by_cases hn : n = 0
      · simp [retryingWrite, Store.conditionalWrite, ht, hn, StoreOp.written]
      · have h := ih s.fetch.1.2 s.fetch.2
        simp only [retryingWrite, Store.conditionalWrite, ht, hn, if_false]
        refine ⟨?_, h.2⟩
        intro op hop d' hd'
        simp only [List.cons_append, List.nil_append, List.mem_cons] at hop
        rcases hop with hop | hop | hop
        · subst hop; simpa [StoreOp.written] using hd'.symm
        · subst hop; simp [StoreOp.written] at hd'
        · exact h.1 op hop d' hd'

/-- Claim C11, refuted as stated, at a store that rejects the first two writes
as conflicts, with `MaxRetryCount = 3`. `Remove` calls `ReadAuthMap` once and
hands the removal applied to that first document to
`UpdateAuthMapWithRetries`; the first two writes are rejected, two more
fetches are made, the third of which returns `thirdFetched`, and the third
write is accepted. The document finally written is the removal applied to the
first fetched document, not to the third: the bindings `ciRole` and `opsUser`
of the concurrent clients are gone. The same holds for `RemoveByUsername`. -/
theorem C11_conflicts_write_first_removal :
    retryArguments.MaxRetryCount = 3 ∧
    (AuthMapper.Remove ⟨conflictingStore.client, false⟩ retryArguments).exec =
      ⟨.returned none,
        [Call.ReadAuthMap,
          Call.UpdateAuthMapWithRetries
            { MapRoles := [nodeRole], MapUsers := [adminUser, devUser] } 0 ⟨1, 8, 3⟩]⟩ ∧
    retryingWrite { MapRoles := [nodeRole], MapUsers := [adminUser, devUser] } 3 0
        conflictingStore.fetch.2 =
      (none,
        { document := { MapRoles := [nodeRole], MapUsers := [adminUser, devUser] },
          versionToken := 3, writers := [] },
        [StoreOp.write { MapRoles := [nodeRole], MapUsers := [adminUser, devUser] } 0 false,
          StoreOp.fetch secondFetched 1,
          StoreOp.write { MapRoles := [nodeRole], MapUsers := [adminUser, devUser] } 1 false,
          StoreOp.fetch thirdFetched 2,
          StoreOp.write { MapRoles := [nodeRole], MapUsers := [adminUser, devUser] } 2 true]) ∧
    (removeRole exampleData.MapRoles
        (NewRolesAuthMap retryArguments.RoleARN retryArguments.Username
          retryArguments.Groups)).1 = [nodeRole] ∧
    (removeRole thirdFetched.MapRoles
        (NewRolesAuthMap retryArguments.RoleARN retryArguments.Username
          retryArguments.Groups)).1 = [nodeRole, ciRole] ∧
    (AuthMapper.RemoveByUsername ⟨conflictingStore.client, false⟩ retryArguments).exec =
      ⟨.returned none,
        [Call.ReadAuthMap,
          Call.UpdateAuthMapWithRetries
            { MapRoles := [nodeRole], MapUsers := [devUser] } 0 ⟨1, 8, 3⟩]⟩ ∧
    retryingWrite { MapRoles := [nodeRole], MapUsers := [devUser] } 3 0
        conflictingStore.fetch.2 =
      (none,
        { document := { MapRoles := [nodeRole], MapUsers := [devUser] },
          versionToken := 3, writers := [] },
        [StoreOp.write { MapRoles := [nodeRole], MapUsers := [devUser] } 0 false,
          StoreOp.fetch secondFetched 1,
          StoreOp.write { MapRoles := [nodeRole], MapUsers := [devUser] } 1 false,
          StoreOp.fetch thirdFetched 2,
          StoreOp.write { MapRoles := [nodeRole], MapUsers := [devUser] } 2 true]) ∧
    thirdFetched.MapRoles.filter (fun e => decide (e.Username ≠ retryArguments.Username)) =
      [nodeRole, ciRole] ∧
    thirdFetched.MapUsers.filter (fun e => decide (e.Username ≠ retryArguments.Username)) =
      [devUser, opsUser] := by
  decide

/-- Claim C11, amended. Under a retry policy, once validation and the fetch
have succeeded and the removal has dropped a binding, `Remove` and
`RemoveByUsername` themselves make exactly two store calls: one `ReadAuthMap`,
and one `UpdateAuthMapWithRetries` that is handed the removal applied to that
one fetched document, the handle obtained by that fetch and the retry
configuration of the arguments; its result is returned as it is. Whatever is
fetched or written after a conflict is fetched and written inside
`UpdateAuthMapWithRetries`, and every write attempt of the retrying write, the
accepted one included, carries the document it was handed. -/
theorem C11_retries_delegated {CM : Type} (b : AuthMapper CM) (args : RemoveArguments)
    (fetched : AwsAuthData) (configMap : CM)
    (hv : args.Validate = .ok ())
    (hr : b.KubernetesClient.ReadAuthMap = .ok (fetched, configMap))
    (hW : args.WithRetries = true) :
    (((args.MapRoles = true → (removeRole fetched.MapRoles
          (NewRolesAuthMap args.RoleARN args.Username args.Groups)).2 = true) ∧
        (args.MapUsers = true → (removeUser fetched.MapUsers
          (NewUsersAuthMap args.UserARN args.Username args.Groups)).2 = true)) →
      (b.Remove args).exec =
        (let d : AwsAuthData :=
          { MapRoles := if args.MapRoles then (removeRole fetched.MapRoles
              (NewRolesAuthMap args.RoleARN args.Username args.Groups)).1 else fetched.MapRoles
            MapUsers := if args.MapUsers then (removeUser fetched.MapUsers
              (NewUsersAuthMap args.UserARN args.Username args.Groups)).1 else fetched.MapUsers }
         let retryer : RetryConfig := ⟨args.MinRetryTime, args.MaxRetryTime, args.MaxRetryCount⟩
         ⟨.returned (b.KubernetesClient.UpdateAuthMapWithRetries d configMap retryer),
           [Call.ReadAuthMap, Call.UpdateAuthMapWithRetries d configMap retryer]⟩)) ∧
    (((∃ e ∈ fetched.MapRoles, e.Username = args.Username) ∨
        ∃ e ∈ fetched.MapUsers, e.Username = args.Username) →
      (b.RemoveByUsername args).exec =
        (let d : AwsAuthData :=
          { MapRoles := fetched.MapRoles.filter (fun e => decide (e.Username ≠ args.Username))
            MapUsers := fetched.MapUsers.filter (fun e => decide (e.Username ≠ args.Username)) }
         let retryer : RetryConfig := ⟨args.MinRetryTime, args.MaxRetryTime, args.MaxRetryCount⟩
         ⟨.returned (b.KubernetesClient.UpdateAuthMapWithRetries d configMap retryer),
           [Call.ReadAuthMap, Call.UpdateAuthMapWithRetries d configMap retryer]⟩)) ∧
    (∀ (d : AwsAuthData) (token : Nat) (s : Store),
      (∀ op ∈ (retryingWrite d args.MaxRetryCount.toNat token s).2.2,
        ∀ d', op.written = some d' → d' = d) ∧
      ((retryingWrite d args.MaxRetryCount.toNat token s).1 = none →
        (retryingWrite d args.MaxRetryCount.toNat token s).2.1.document = d)) := by
  refine ⟨?_, ?_, fun d token s => retryingWrite_document d _ token s⟩
  · rintro ⟨hroles, husers⟩
    rw [Remove_exec_removed b args fetched configMap hv hr hroles husers]
    simp [hW]
  · intro hm
    rw [RemoveByUsername_exec_removed b args fetched configMap hv hr hm]
    simp [hW]

/-- Witness for C11: at the store that rejects the first two writes, both
functions make their two calls and return the success of the third attempt. -/
theorem C11_retries_delegated_witness :
    (AuthMapper.Remove ⟨conflictingStore.client, false⟩ retryArguments).exec =
      ⟨.returned none,
        [Call.ReadAuthMap,
          Call.UpdateAuthMapWithRetries
            { MapRoles := [nodeRole], MapUsers := [adminUser, devUser] } 0 ⟨1, 8, 3⟩]⟩ ∧
    (AuthMapper.RemoveByUsername ⟨conflictingStore.client, false⟩ retryArguments).exec =
      ⟨.returned none,
        [Call.ReadAuthMap,
          Call.UpdateAuthMapWithRetries
            { MapRoles := [nodeRole], MapUsers := [devUser] } 0 ⟨1, 8, 3⟩]⟩ := by
  have h := C11_retries_delegated ⟨conflictingStore.client, false⟩ retryArguments
    exampleData 0 rfl rfl rfl
  exact ⟨(h.1 ⟨fun _ => by decide, fun hU => absurd hU (by decide)⟩).trans (by decide),
    (h.2.1 (Or.inl ⟨adminRole, by decide, by decide⟩)).trans (by decide)⟩

/-- Claim C12: without retries, once validation and the fetch have succeeded
and the removal has dropped a binding, `Remove` and `RemoveByUsername` make
exactly one fetch and one call of `UpdateAuthMap`, which receives the handle
obtained by that fetch, and they return the result of that call as it is, an
error included. -/
theorem C12_single_attempt {CM : Type} (b : AuthMapper CM) (args : RemoveArguments)
    (fetched : AwsAuthData) (configMap : CM)
    (hv : args.Validate = .ok ())
    (hr : b.KubernetesClient.ReadAuthMap = .ok (fetched, configMap))
    (hW : args.WithRetries = false) :
    (((args.MapRoles = true ∧ (removeRole fetched.MapRoles
          (NewRolesAuthMap args.RoleARN args.Username args.Groups)).2 = true) ∨
        (args.MapUsers = true ∧ (removeUser fetched.MapUsers
          (NewUsersAuthMap args.UserARN args.Username args.Groups)).2 = true)) →
      (b.Remove args).exec =
        (let d : AwsAuthData :=
          { MapRoles := if args.MapRoles then (removeRole fetched.MapRoles
              (NewRolesAuthMap args.RoleARN args.Username args.Groups)).1 else fetched.MapRoles
            MapUsers := if args.MapUsers then (removeUser fetched.MapUsers
              (NewUsersAuthMap args.UserARN args.Username args.Groups)).1 else fetched.MapUsers }
         ⟨.returned (b.KubernetesClient.UpdateAuthMap d configMap),
           [Call.ReadAuthMap, Call.UpdateAuthMap d configMap]⟩)) ∧
    (((∃ e ∈ fetched.MapRoles, e.Username = args.Username) ∨
        ∃ e ∈ fetched.MapUsers, e.Username = args.Username) →
      (b.RemoveByUsername args).exec =
        (let d : AwsAuthData :=
          { MapRoles := fetched.MapRoles.filter (fun e => decide (e.Username ≠ args.Username))
            MapUsers := fetched.MapUsers.filter (fun e => decide (e.Username ≠ args.Username)) }
         ⟨.returned (b.KubernetesClient.UpdateAuthMap d configMap),
           [Call.ReadAuthMap, Call.UpdateAuthMap d configMap]⟩)) := by
  have hex := ((RemoveArguments.Validate_ok_iff args).mp hv).2.2.2.1
  constructor
  · intro hdrop
    have hroles : args.MapRoles = true → (removeRole fetched.MapRoles
        (NewRolesAuthMap args.RoleARN args.Username args.Groups)).2 = true := by
      intro hR
      rcases hdrop with h | h
      · exact h.2
      · exact absurd ⟨hR, h.1⟩ hex
    have husers : args.MapUsers = true → (removeUser fetched.MapUsers
        (NewUsersAuthMap args.UserARN args.Username args.Groups)).2 = true := by
      intro hU
      rcases hdrop with h | h
      · exact absurd ⟨h.1, hU⟩ hex
      · exact h.2
    rw [Remove_exec_removed b args fetched configMap hv hr hroles husers]
    simp [hW]
  · intro hm
    rw [RemoveByUsername_exec_removed b args fetched configMap hv hr hm]
    simp [hW]

/-- Witness for C12: against a store that rejects the write as a conflict, the
removal of the admin role without retries fetches once, writes once with the
handle `7`, and returns the conflict. -/
theorem C12_single_attempt_witness :
    (AuthMapper.Remove ⟨conflictClient, false⟩
        { retryArguments with WithRetries := false }).exec =
      ⟨.returned (some "the object has been modified"),
        [Call.ReadAuthMap,
          Call.UpdateAuthMap { MapRoles := [nodeRole], MapUsers := [adminUser, devUser] } 7]⟩ ∧
    (AuthMapper.RemoveByUsername ⟨conflictClient, false⟩
        { retryArguments with WithRetries := false }).exec =
      ⟨.returned (some "the object has been modified"),
        [Call.ReadAuthMap,
          Call.UpdateAuthMap { MapRoles := [nodeRole], MapUsers := [devUser] } 7]⟩ := by
  have h := C12_single_attempt ⟨conflictClient, false⟩
    { retryArguments with WithRetries := false } exampleData 7 rfl rfl rfl
  exact ⟨(h.1 (Or.inl ⟨rfl, by decide⟩)).trans (by decide),
    (h.2 (Or.inl ⟨adminRole, by decide, by decide⟩)).trans (by decide)⟩

/-- Claim C13: when the fetch is made and fails, `Remove` and
`RemoveByUsername` return the fetch error as it is and the fetch is their only
store call, so nothing is written, with or without `WithRetries`. -/
theorem C13_fetch_error_returned {CM : Type} (b : AuthMapper CM) (args : RemoveArguments)
    (err : String) (hr : b.KubernetesClient.ReadAuthMap = .error err) :
    (Call.ReadAuthMap ∈ (b.Remove args).exec.calls →
      (b.Remove args).exec = ⟨.returned (some err), [Call.ReadAuthMap]⟩ ∧
      ∀ c ∈ (b.Remove args).exec.calls, c.isWrite = false) ∧
    (Call.ReadAuthMap ∈ (b.RemoveByUsername args).exec.calls →
      (b.RemoveByUsername args).exec = ⟨.returned (some err), [Call.ReadAuthMap]⟩ ∧
      ∀ c ∈ (b.RemoveByUsername args).exec.calls, c.isWrite = false) := by
  cases hv : args.Validate with
  | error msg =>
    have h := exec_invalid b args msg hv
    rw [h.1, h.2]
    simp
  | ok u =>
    have h := exec_fetch_error b args err hv hr
    rw [h.1, h.2]
    simp [Call.isWrite]

/-- Witness for C13: a store whose fetch fails, with and without retries. -/
theorem C13_fetch_error_returned_witness :
    (AuthMapper.Remove ⟨failingClient, false⟩ retryArguments).exec =
      ⟨.returned (some "configmaps \"aws-auth\" not found"), [Call.ReadAuthMap]⟩ ∧
    (AuthMapper.RemoveByUsername ⟨failingClient, false⟩
        { retryArguments with WithRetries := false }).exec =
      ⟨.returned (some "configmaps \"aws-auth\" not found"), [Call.ReadAuthMap]⟩ :=
  ⟨((C13_fetch_error_returned ⟨failingClient, false⟩ retryArguments
      "configmaps \"aws-auth\" not found" rfl).1 (by decide)).1,
    ((C13_fetch_error_returned ⟨failingClient, false⟩
      { retryArguments with WithRetries := false }
      "configmaps \"aws-auth\" not found" rfl).2 (by decide)).1⟩

/-! ## Claims about validation -/

/-- Claim C14: with `WithRetries` set and `MaxRetryCount < 1`, both
`RemoveArguments.Validate` and `UpsertArguments.Validate` end the process with
the retry-count message, and `Remove` and `RemoveByUsername`, which validate
first, make no store call at all: no fetch and no write. -/
theorem C14_retry_count_rejected {CM : Type} (b : AuthMapper CM) (args : RemoveArguments)
    (uargs : UpsertArguments)
    (hW : args.WithRetries = true) (hc : args.MaxRetryCount < 1)
    (hWu : uargs.WithRetries = true) (hcu : uargs.MaxRetryCount < 1) :
    args.Validate = .error "error: --retry-max-count is invalid, must be greater than zero" ∧
    uargs.Validate = .error "error: --retry-max-count is invalid, must be greater than zero" ∧
    (b.Remove args).exec =
      ⟨.exited "error: --retry-max-count is invalid, must be greater than zero", []⟩ ∧
    (b.RemoveByUsername args).exec =
      ⟨.exited "error: --retry-max-count is invalid, must be greater than zero", []⟩ := by
  have hv : args.Validate =
      .error "error: --retry-max-count is invalid, must be greater than zero" := by
    rw [RemoveArguments.Validate_remove_checks, if_pos ⟨hW, hc⟩]
  have hvu : uargs.Validate =
      .error "error: --retry-max-count is invalid, must be greater than zero" := by
    rw [UpsertArguments.Validate_upsert_checks, if_pos ⟨hWu, hcu⟩]
  have h := exec_invalid b args _ hv
  exact ⟨hv, hvu, h.1, h.2⟩

/-- Witness for C14: a retry count of zero, and a negative one for the upsert
arguments. -/
theorem C14_retry_count_rejected_witness :
    (AuthMapper.Remove ⟨exampleClient, false⟩ { retryArguments with MaxRetryCount := 0 }).exec =
      ⟨.exited "error: --retry-max-count is invalid, must be greater than zero", []⟩ :=
  (C14_retry_count_rejected ⟨exampleClient, false⟩ { retryArguments with MaxRetryCount := 0 }
    { KubeconfigPath := "", MapRoles := true, MapUsers := false, Username := "admin",
      RoleARN := "arn:aws:iam::111:role/admin", UserARN := "", Groups := none,
      WithRetries := true, MinRetryTime := 1, MaxRetryTime := 8, MaxRetryCount := -2 }
    rfl (by decide) rfl (by decide)).2.2.1

/-- Claim C15: `RemoveArguments.Validate` accepts exactly when retries imply a
retry count of at least one, a selected kind has a non-empty identifier, the
two kinds are not both selected, and one of MapRoles, MapUsers and IsGlobal is
set. So a targeted removal with an empty identifier is rejected, and accepted
arguments select at most one kind. -/
theorem C15_Validate_accepts_iff (args : RemoveArguments) :
    (args.Validate = .ok () ↔
      ((args.WithRetries = true → 1 ≤ args.MaxRetryCount) ∧
        (args.MapRoles = true → args.RoleARN ≠ "") ∧
        (args.MapUsers = true → args.UserARN ≠ "") ∧
        ¬ (args.MapRoles = true ∧ args.MapUsers = true) ∧
        (args.MapRoles = true ∨ args.MapUsers = true ∨ args.IsGlobal = true))) ∧
    ((args.MapRoles = true ∧ args.RoleARN = "") ∨ (args.MapUsers = true ∧ args.UserARN = "") →
      ∃ msg, args.Validate = .error msg) ∧
    (args.Validate = .ok () → ¬ (args.MapRoles = true ∧ args.MapUsers = true)) := by
  have h := RemoveArguments.Validate_ok_iff args
  refine ⟨h, ?_, fun hv => (h.mp hv).2.2.2.1⟩
  intro hbad
  cases hv : args.Validate with
  | error msg => exact ⟨msg, rfl⟩
  | ok u =>
    have hok := h.mp hv
    rcases hbad with ⟨h1, h2⟩ | ⟨h1, h2⟩
    · exact absurd h2 (hok.2.1 h1)
    · exact absurd h2 (hok.2.2.1 h1)

/-- Witness for C15: a role removal with an empty identifier is rejected. -/
theorem C15_Validate_accepts_iff_witness :
    ∃ msg, RemoveArguments.Validate { noArguments with MapRoles := true } = .error msg :=
  (C15_Validate_accepts_iff { noArguments with MapRoles := true }).2.1 (Or.inl ⟨rfl, rfl⟩)

/-! ## Further properties of `removeRole` and `removeUser` -/

/-- Claim C16: for a candidate with a non-empty username, `removeRole` and
`removeUser` drop a binding exactly when its identifier and its username equal
the candidate's; the username test runs last and decides, so the result is the
same whatever the groups of the candidate are. -/
theorem C16_username_decides (L : List RolesAuthMap) (C : RolesAuthMap)
    (LU : List UsersAuthMap) (CU : UsersAuthMap)
    (hu : C.Username ≠ "") (huU : CU.Username ≠ "") :
    ((removeRole L C).1 =
        L.filter (fun E => decide (¬ (E.RoleARN = C.RoleARN ∧ E.Username = C.Username))) ∧
      (∀ E ∈ L, E ∉ (removeRole L C).1 ↔ (E.RoleARN = C.RoleARN ∧ E.Username = C.Username)) ∧
      ∀ g : StringSlice, removeRole L { C with Groups := g } = removeRole L C) ∧
    ((removeUser LU CU).1 =
        LU.filter (fun E => decide (¬ (E.UserARN = CU.UserARN ∧ E.Username = CU.Username))) ∧
      (∀ E ∈ LU, E ∉ (removeUser LU CU).1 ↔
        (E.UserARN = CU.UserARN ∧ E.Username = CU.Username)) ∧
      ∀ g : StringSlice, removeUser LU { CU with Groups := g } = removeUser LU CU) := by
  have hm : ∀ (g : StringSlice) E, roleMatch E { C with Groups := g } =
      decide (E.RoleARN = C.RoleARN ∧ E.Username = C.Username) := by
    intro g E; simp [roleMatch_eq, hu, Bool.decide_and]
  have hmU : ∀ (g : StringSlice) E, userMatch E { CU with Groups := g } =
      decide (E.UserARN = CU.UserARN ∧ E.Username = CU.Username) := by
    intro g E; simp [userMatch_eq, huU, Bool.decide_and]
  have hm0 : ∀ E, roleMatch E C = decide (E.RoleARN = C.RoleARN ∧ E.Username = C.Username) :=
    fun E => hm C.Groups E
  have hmU0 : ∀ E, userMatch E CU =
      decide (E.UserARN = CU.UserARN ∧ E.Username = CU.Username) :=
    fun E => hmU CU.Groups E
  refine ⟨⟨?_, ?_, ?_⟩, ⟨?_, ?_, ?_⟩⟩
  · rw [removeRole_loop]; simp [hm0]
  · intro E hE
    rw [removeRole_loop]
    exact (not_mem_filter_not_iff _ L E hE).trans (by simp [hm0])
  · intro g
    rw [removeRole_loop, removeRole_loop]
    simp only [hm, hm0]
  · rw [removeUser_loop]; simp [hmU0]
  · intro E hE
    rw [removeUser_loop]
    exact (not_mem_filter_not_iff _ LU E hE).trans (by simp [hmU0])
  · intro g
    rw [removeUser_loop, removeUser_loop]
    simp only [hmU, hmU0]

/-- Witness for C16: the candidate for the admin role with username `admin`
removes the admin binding, with groups `other` as with no groups. -/
theorem C16_username_decides_witness :
    removeRole [adminRole, nodeRole]
        { RoleARN := "arn:aws:iam::111:role/admin", Username := "admin", Groups := some ["other"] } =
      ([nodeRole], true) :=
  ((C16_username_decides [adminRole, nodeRole]
      { RoleARN := "arn:aws:iam::111:role/admin", Username := "admin", Groups := none }
      [adminUser] adminUser (by decide) (by decide)).1.2.2 (some ["other"])).trans (by decide)

/-- Claim C17: `removeRole` and `removeUser` are the same function up to the
name of the identifier field. Renaming every binding of the list and the
candidate and applying `removeUser` gives the renamed result of `removeRole`
and the same boolean. -/
theorem C17_removeUser_refines_removeRole (L : List RolesAuthMap) (C : RolesAuthMap) :
    removeUser (L.map RolesAuthMap.toUsersAuthMap) C.toUsersAuthMap =
      ((removeRole L C).1.map RolesAuthMap.toUsersAuthMap, (removeRole L C).2) := by
  have hm : ∀ E : RolesAuthMap, userMatch E.toUsersAuthMap C.toUsersAuthMap = roleMatch E C := by
    intro E
    rw [userMatch_eq, roleMatch_eq]
    rfl
  rw [removeUser_loop, removeRole_loop]
  have hf : ((fun e => !userMatch e C.toUsersAuthMap) ∘ RolesAuthMap.toUsersAuthMap) =
      (fun e => !roleMatch e C) := by
    funext E; simp [hm]
  have ha : ((fun e => userMatch e C.toUsersAuthMap) ∘ RolesAuthMap.toUsersAuthMap) =
      (fun e => roleMatch e C) := by
    funext E; simp [hm]
  refine Prod.ext ?_ ?_
  · simp only [List.filter_map, hf]
  · show (L.map RolesAuthMap.toUsersAuthMap).any (fun e => userMatch e C.toUsersAuthMap) =
      L.any (fun e => roleMatch e C)
    induction L with
    | nil => rfl
    | cons E L ih => simp only [List.map_cons, List.any_cons, hm, ih]

/-- Claim C19: removals commute on the resulting list, for `removeRole` and
for `removeUser`: removing with one candidate and then with another gives the
same list as removing in the other order. -/
theorem C19_removals_commute (L : List RolesAuthMap) (C1 C2 : RolesAuthMap)
    (LU : List UsersAuthMap) (CU1 CU2 : UsersAuthMap) :
    (removeRole (removeRole L C1).1 C2).1 = (removeRole (removeRole L C2).1 C1).1 ∧
    (removeUser (removeUser LU CU1).1 CU2).1 = (removeUser (removeUser LU CU2).1 CU1).1 := by
  constructor
  · rw [removeRole_loop L C1, removeRole_loop L C2, removeRole_loop, removeRole_loop]
    simp only [List.filter_filter]
    apply List.filter_congr
    intro E _
    exact Bool.and_comm _ _
  · rw [removeUser_loop LU CU1, removeUser_loop LU CU2, removeUser_loop, removeUser_loop]
    simp only [List.filter_filter]
    apply List.filter_congr
    intro E _
    exact Bool.and_comm _ _

/-- Claim C18: frame of a targeted removal. With accepted arguments and a
successful fetch, every document `Remove` hands to a write has, when MapRoles
is set, the fetched MapUsers unchanged and MapRoles replaced by the list
`removeRole` returned; and when MapUsers is set, the fetched MapRoles unchanged
and MapUsers replaced by the list `removeUser` returned. -/
theorem C18_Remove_frame {CM : Type} (b : AuthMapper CM) (args : RemoveArguments)
    (fetched : AwsAuthData) (configMap : CM) (c : Call CM) (d : AwsAuthData)
    (hv : args.Validate = .ok ())
    (hr : b.KubernetesClient.ReadAuthMap = .ok (fetched, configMap))
    (hc : c ∈ (b.Remove args).exec.calls) (hd : c.written = some d) :
    (args.MapRoles = true →
      d.MapUsers = fetched.MapUsers ∧
      d.MapRoles = (removeRole fetched.MapRoles
        (NewRolesAuthMap args.RoleARN args.Username args.Groups)).1) ∧
    (args.MapUsers = true →
      d.MapRoles = fetched.MapRoles ∧
      d.MapUsers = (removeUser fetched.MapUsers
        (NewUsersAuthMap args.UserARN args.Username args.Groups)).1) := by
  have hex := ((RemoveArguments.Validate_ok_iff args).mp hv).2.2.2.1
  have key : ∀ d' : AwsAuthData,
      d' = { MapRoles := if args.MapRoles then (removeRole fetched.MapRoles
              (NewRolesAuthMap args.RoleARN args.Username args.Groups)).1 else fetched.MapRoles
             MapUsers := if args.MapUsers then (removeUser fetched.MapUsers
              (NewUsersAuthMap args.UserARN args.Username args.Groups)).1
                else fetched.MapUsers } →
      (args.MapRoles = true →
        d'.MapUsers = fetched.MapUsers ∧
        d'.MapRoles = (removeRole fetched.MapRoles
          (NewRolesAuthMap args.RoleARN args.Username args.Groups)).1) ∧
      (args.MapUsers = true →
        d'.MapRoles = fetched.MapRoles ∧
        d'.MapUsers = (removeUser fetched.MapUsers
          (NewUsersAuthMap args.UserARN args.Username args.Groups)).1) := by
    intro d' hd'
    subst hd'
    cases hR : args.MapRoles <;> cases hU : args.MapUsers
    · simp
    · simp
    · simp
    · exact absurd ⟨hR, hU⟩ hex
  by_cases h1 : args.MapRoles = true ∧ (removeRole fetched.MapRoles
      (NewRolesAuthMap args.RoleARN args.Username args.Groups)).2 = false
  · rw [Remove_exec b args fetched configMap hv hr, if_pos h1] at hc
    simp only [List.mem_singleton] at hc
    subst hc
    simp [Call.written] at hd
  · by_cases h2 : args.MapUsers = true ∧ (removeUser fetched.MapUsers
        (NewUsersAuthMap args.UserARN args.Username args.Groups)).2 = false
    · rw [Remove_exec b args fetched configMap hv hr, if_neg h1, if_pos h2] at hc
      simp only [List.mem_singleton] at hc
      subst hc
      simp [Call.written] at hd
    · have hroles : args.MapRoles = true → (removeRole fetched.MapRoles
          (NewRolesAuthMap args.RoleARN args.Username args.Groups)).2 = true := by
        intro hR
        cases h : (removeRole fetched.MapRoles
          (NewRolesAuthMap args.RoleARN args.Username args.Groups)).2
        · exact absurd ⟨hR, h⟩ h1
        · rfl
      have husers : args.MapUsers = true → (removeUser fetched.MapUsers
          (NewUsersAuthMap args.UserARN args.Username args.Groups)).2 = true := by
        intro hU
        cases h : (removeUser fetched.MapUsers
          (NewUsersAuthMap args.UserARN args.Username args.Groups)).2
        · exact absurd ⟨hU, h⟩ h2
        · rfl
      rw [Remove_exec_removed b args fetched configMap hv hr hroles husers] at hc
      cases hW : args.WithRetries
      · simp only [hW, Bool.false_eq_true, if_false, List.mem_cons, List.mem_singleton,
          List.not_mem_nil, or_false] at hc
        rcases hc with hc | hc
        · subst hc; simp [Call.written] at hd
        · subst hc
          simp only [Call.written, Option.some.injEq] at hd
          exact key d hd.symm
      · simp only [hW, if_true, List.mem_cons, List.mem_singleton,
          List.not_mem_nil, or_false] at hc
        rcases hc with hc | hc
        · subst hc; simp [Call.written] at hd
        · subst hc
          simp only [Call.written, Option.some.injEq] at hd
          exact key d hd.symm

/-- Witness for C18: removing the admin role from `exampleData` writes a
document with the node role alone and the two user bindings as fetched. -/
theorem C18_Remove_frame_witness :
    ({ MapRoles := [nodeRole], MapUsers := [adminUser, devUser] } : AwsAuthData).MapUsers =
      exampleData.MapUsers ∧
    ({ MapRoles := [nodeRole], MapUsers := [adminUser, devUser] } : AwsAuthData).MapRoles =
      (removeRole exampleData.MapRoles
        (NewRolesAuthMap retryArguments.RoleARN retryArguments.Username
          retryArguments.Groups)).1 :=
  (C18_Remove_frame ⟨exampleClient, false⟩ retryArguments exampleData 7
    (Call.UpdateAuthMapWithRetries
      { MapRoles := [nodeRole], MapUsers := [adminUser, devUser] } 7 ⟨1, 8, 3⟩)
    { MapRoles := [nodeRole], MapUsers := [adminUser, devUser] }
    rfl rfl (by decide) rfl).1 rfl

end Mapper
